import Mathlib

/-!
Verification of the WriteUntilYouDie countdown-and-decay engine.

This file gives a shallow embedding of the current application module
(the IIFE in the repository's main script: configuration, mutable state,
timer scheduling, countdown sampling, deletion, session handling, history
threshold, and settings handling), together with theorems settling the
specification claims about it.

Modelling conventions:
- Wall-clock time is in milliseconds, as a natural number (Date.now()).
- JS numbers that carry fractional time values (elapsed seconds,
  remaining seconds, progress) are modelled as rationals.
- The host timer service (setTimeout / setInterval / clearTimeout /
  clearInterval) is modelled explicitly as a queue of pending timers with
  integer ids; an interval reschedules itself when it fires, exactly as
  the host event loop does.  The simulator processes, at each step, the
  earliest pending occurrence (ties between timers broken by registration
  order, i.e. lower id; a timer due at time t fires before an external
  event at the same time t).
- DOM writes that the engine later reads back, or that the specification
  names as observable (progress bar width, pause-timer text, word-count
  text, CSS classes, disabled flags), are modelled as fields of the state.
  The textarea blur filter string is a pure rendering output (it mixes in
  a Math.sin heartbeat pulse) and is not read back by any logic; it is not
  modelled as state.  The baseline ramp of that filter, the decay
  intensity, is modelled by the function baseBlur below.
- Observable occurrences (DecayTick samples, TextDestroyed, SessionStarted)
  are recorded in an event log.
-/

namespace WUD

/-- Whitespace test used by String.prototype.trim and the split regex. -/
def isWs (c : Char) : Bool := c.isWhitespace

/-- Model of String.prototype.trim on a list of characters: drop
whitespace from the front, then from the back. -/
def trimC (l : List Char) : List Char :=
  (((l.dropWhile isWs).reverse.dropWhile isWs)).reverse

/-- Model of text.split with a whitespace-run regex: split on whitespace
and keep the nonempty pieces, so that each piece is a maximal run of
non-whitespace characters. -/
def splitWsRuns (l : List Char) : List (List Char) :=
  (l.splitOnP isWs).filter (fun w => w ≠ [])

/-- Source: countWords.  Trim the text; empty result counts as zero
words, otherwise count the runs produced by splitting on whitespace. -/
def countWords (text : List Char) : Nat :=
  let trimmed := trimC text
  if trimmed = [] then 0 else (splitWsRuns trimmed).length

/-- Source: CONFIG.DEFAULT_TIMEOUT. -/
def DEFAULT_TIMEOUT : ℚ := 5

/-- Source: CONFIG.COUNTDOWN_INTERVAL (milliseconds). -/
def COUNTDOWN_INTERVAL : Nat := 100

/-- The remaining-time computation performed at every countdown sample:
remaining = max(0, timeoutSeconds - elapsed) with
elapsed = (now - countdownStart) / 1000.  All arguments in the units the
source uses: T in seconds, cs and now in milliseconds. -/
def sampleRemaining (T cs now : ℚ) : ℚ :=
  max 0 (T - (now - cs) / 1000)

/-- The progress computation performed at every countdown sample:
progress = remaining / timeoutSeconds. -/
def sampleProgress (T cs now : ℚ) : ℚ :=
  sampleRemaining T cs now / T

/-- Source: const baseBlur = (1 - progress) * 10.  The baseline decay
intensity ramp (the heartbeat spike added on top of it is a transient
rendering pulse). -/
def baseBlur (progress : ℚ) : ℚ := (1 - progress) * 10

/-- The kinds of callbacks the module hands to the host timer service. -/
inductive Cb
  | grace           -- one-shot scheduled by startCountdown
  | countdownTick   -- interval scheduled by beginActiveCountdown
  | elapsedTick     -- interval scheduled by startElapsedTimer
  | deletedTimeout  -- one-shot scheduled by handleTextDeletion (CSS class)
  deriving Repr, DecidableEq

/-- A pending timer in the host scheduler: its handle, its callback, the
time it next fires, and its repetition period (none for a one-shot). -/
structure Timer where
  id : Nat
  cb : Cb
  due : Nat
  period : Option Nat
  deriving Repr, DecidableEq

/-- Model of the module-level `state` object together with the DOM cells
the module writes and reads. -/
@[ext]
structure St where
  isActive : Bool
  countdownActive : Bool
  startTime : Option Nat
  countdownStart : Option Nat
  timeoutSeconds : ℚ
  graceTimerId : Option Nat
  countdownTimerId : Option Nat
  elapsedTimerId : Option Nat
  heartbeatCount : Nat
  lastBeatTime : Nat
  bufferText : List Char
  textAreaDisabled : Bool
  startButtonVisible : Bool
  saveDisabled : Bool
  resetDisabled : Bool
  wordCountText : Nat
  elapsedTimeText : ℚ
  pauseTimerText : ℚ
  progressWidth : ℚ
  progressContainerActive : Bool
  countdownClass : Bool
  heartbeatClass : Bool
  deletedClass : Bool
  deriving Repr, DecidableEq

/-- Observable occurrences, as named by the specification. -/
inductive Ev
  | sessionStarted (t : Nat)
  | decayTick (t : Nat) (progress : ℚ) (remaining : ℚ)
  | textDestroyed (t : Nat) (finalText : List Char) (wordCount : Nat)
      (archived : Bool)
  deriving Repr, DecidableEq

/-- The whole world: current time, the host scheduler (fresh-handle
counter and pending timers), the module state, and the event log. -/
@[ext]
structure World where
  now : Nat
  nextId : Nat
  timers : List Timer
  st : St
  events : List Ev
  deriving Repr, DecidableEq

/-- Host setTimeout: register a one-shot timer, return it with its handle. -/
def setTimeoutW (w : World) (cb : Cb) (delay : Nat) : World × Nat :=
  ({ w with nextId := w.nextId + 1,
            timers := w.timers ++ [⟨w.nextId, cb, w.now + delay, none⟩] },
   w.nextId)

/-- Host setInterval: register a repeating timer, return it with its handle. -/
def setIntervalW (w : World) (cb : Cb) (delay : Nat) : World × Nat :=
  ({ w with nextId := w.nextId + 1,
            timers := w.timers ++ [⟨w.nextId, cb, w.now + delay, some delay⟩] },
   w.nextId)

/-- Host clearTimeout / clearInterval: deregister a handle. -/
def clearTimerW (w : World) (i : Nat) : World :=
  { w with timers := w.timers.filter (fun tm => tm.id ≠ i) }

/-- Source: clearAllTimers.  Clears the grace timeout, the countdown
interval and the elapsed interval through their stored handles, nulling
each handle. -/
def clearAllTimers (w : World) : World :=
  let w1 := match w.st.graceTimerId with
    | some i => { clearTimerW w i with st := { w.st with graceTimerId := none } }
    | none => w
  let w2 := match w1.st.countdownTimerId with
    | some i => { clearTimerW w1 i with st := { w1.st with countdownTimerId := none } }
    | none => w1
  match w2.st.elapsedTimerId with
    | some i => { clearTimerW w2 i with st := { w2.st with elapsedTimerId := none } }
    | none => w2

/-- Source: startElapsedTimer.  Schedules the 1-second elapsed-time
interval and stores its handle.  Note: the source does not clear a
previously stored elapsed handle here. -/
def startElapsedTimer (w : World) : World :=
  let p := setIntervalW w Cb.elapsedTick 1000
  { p.1 with st := { p.1.st with elapsedTimerId := some p.2 } }

/-- Source: startCountdown.  Clears any existing grace timer, then
schedules the grace one-shot with a fixed 1000 ms delay. -/
def startCountdown (w : World) : World :=
  let w1 := match w.st.graceTimerId with
    | some i => { clearTimerW w i with st := { w.st with graceTimerId := none } }
    | none => w
  let p := setTimeoutW w1 Cb.grace 1000
  { p.1 with st := { p.1.st with graceTimerId := some p.2 } }

/-- Source: beginActiveCountdown.  Marks the countdown active, records
the countdown start from the wall clock, resets the heartbeat bookkeeping,
activates the progress container and countdown classes, triggers the
first heartbeat, and schedules the 100 ms sampling interval.  Note: the
source does not clear a previously stored countdown handle here. -/
def beginActiveCountdown (w : World) : World :=
  let w1 := { w with st := { w.st with
      countdownActive := true,
      countdownStart := some w.now,
      heartbeatCount := 0,
      lastBeatTime := w.now,
      progressContainerActive := true,
      countdownClass := true,
      heartbeatClass := true } }
  let p := setIntervalW w1 Cb.countdownTick COUNTDOWN_INTERVAL
  { p.1 with st := { p.1.st with countdownTimerId := some p.2 } }

/-- Source: stopCountdown.  Clears the grace timer and the countdown
interval through their handles, deactivates the countdown, forgets the
countdown start, resets heartbeat bookkeeping and all countdown visuals
(full progress bar, pause timer showing the full timeout). -/
def stopCountdown (w : World) : World :=
  let w1 := match w.st.graceTimerId with
    | some i => { clearTimerW w i with st := { w.st with graceTimerId := none } }
    | none => w
  let w2 := match w1.st.countdownTimerId with
    | some i => { clearTimerW w1 i with st := { w1.st with countdownTimerId := none } }
    | none => w1
  { w2 with st := { w2.st with
      countdownActive := false,
      countdownStart := none,
      heartbeatCount := 0,
      progressWidth := 1,
      progressContainerActive := false,
      countdownClass := false,
      heartbeatClass := false,
      pauseTimerText := w2.st.timeoutSeconds } }

/-- Source: handleTextDeletion.  Reads and trims the buffer, counts its
words, archives to history when there is meaningful content
(text.length > 0 and words >= 3), clears every tracked timer, deactivates
the session, clears the buffer and resets the UI, then schedules the
500 ms removal of the 'deleted' CSS class.  The archival hand-off and the
destruction are recorded as the TextDestroyed event. -/
def handleTextDeletion (w : World) : World :=
  let text := trimC w.st.bufferText
  let words := countWords text
  let archived := decide (text ≠ [] ∧ 3 ≤ words)
  let w0 := { w with events :=
      w.events ++ [Ev.textDestroyed w.now text words archived] }
  let w1 := clearAllTimers w0
  let w2 := { w1 with st := { w1.st with
      isActive := false,
      countdownActive := false,
      startTime := none,
      bufferText := [],
      textAreaDisabled := true,
      startButtonVisible := true,
      wordCountText := 0,
      elapsedTimeText := 0,
      pauseTimerText := w1.st.timeoutSeconds,
      progressWidth := 1,
      progressContainerActive := false,
      countdownClass := false,
      heartbeatClass := false,
      saveDisabled := true,
      resetDisabled := true,
      deletedClass := true } }
  (setTimeoutW w2 Cb.deletedTimeout 500).1

/-- The body of the countdown sampling interval callback inside
beginActiveCountdown: recompute elapsed, remaining and progress from the
wall clock, update the progress bar and pause timer (recorded as a
DecayTick event), advance the heartbeat when a whole second of elapsed
decay time has passed, and destroy the text at the first sample where
remaining <= 0. -/
def countdownTickBody (w : World) : World :=
  let cs : Nat := w.st.countdownStart.getD 0
  let remaining : ℚ := sampleRemaining w.st.timeoutSeconds (cs : ℚ) (w.now : ℚ)
  let progress : ℚ := remaining / w.st.timeoutSeconds
  let w1 := { w with
      st := { w.st with progressWidth := progress, pauseTimerText := remaining },
      events := w.events ++ [Ev.decayTick w.now progress remaining] }
  let currentBeat : Nat := (w.now - cs) / 1000
  let w2 := if w1.st.heartbeatCount < currentBeat then
      { w1 with st := { w1.st with
          heartbeatCount := currentBeat, lastBeatTime := w.now,
          heartbeatClass := true } }
    else w1
  if remaining ≤ 0 then handleTextDeletion w2 else w2

/-- The body of the elapsed-time interval callback: update the elapsed
time display when a session is active. -/
def elapsedTickBody (w : World) : World :=
  match w.st.startTime with
  | some t0 =>
      if w.st.isActive then
        { w with st := { w.st with
            elapsedTimeText := ((w.now : ℚ) - (t0 : ℚ)) / 1000 } }
      else w
  | none => w

/-- Source: startSession.  Activates the session, records the start time,
enables the textarea and loads the initial text into it (updating the
word count when continuing from existing text), hides the start button,
enables save and reset, then starts the elapsed timer and the countdown. -/
def startSession (initialText : Option (List Char)) (w : World) : World :=
  let w1 := { w with
      st := { w.st with
        isActive := true,
        startTime := some w.now,
        textAreaDisabled := false,
        bufferText := match initialText with | some t => t | none => [],
        wordCountText := match initialText with
          | some t => countWords t
          | none => w.st.wordCountText,
        startButtonVisible := false,
        saveDisabled := false,
        resetDisabled := false },
      events := w.events ++ [Ev.sessionStarted w.now] }
  startCountdown (startElapsedTimer w1)

/-- Source: handleInput.  The browser has already placed the new text in
the textarea; the handler stops the countdown, updates the word count,
and restarts the countdown immediately. -/
def handleInput (newText : List Char) (w : World) : World :=
  let w0 := { w with st := { w.st with bufferText := newText } }
  let w1 := stopCountdown w0
  let w2 := { w1 with st := { w1.st with wordCountText := countWords newText } }
  startCountdown w2

/-- Source: resetSession.  Clears every tracked timer, stops the
countdown, deactivates the session, clears the buffer and resets the UI. -/
def resetSession (w : World) : World :=
  let w1 := clearAllTimers w
  let w2 := stopCountdown w1
  { w2 with st := { w2.st with
      isActive := false,
      startTime := none,
      bufferText := [],
      textAreaDisabled := true,
      startButtonVisible := true,
      wordCountText := 0,
      elapsedTimeText := 0,
      pauseTimerText := w2.st.timeoutSeconds,
      progressWidth := 1,
      progressContainerActive := false,
      countdownClass := false,
      heartbeatClass := false,
      saveDisabled := true,
      resetDisabled := true } }

/-- Source: handleTimeoutChange.  parseInt of the setting input, modelled
as an optional integer (none for NaN).  A value in [1, 30] is applied and
displayed; anything else leaves the state untouched. -/
def handleTimeoutChange (v : Option Int) (w : World) : World :=
  match v with
  | some n =>
      if 1 ≤ n ∧ n ≤ 30 then
        { w with st := { w.st with
            timeoutSeconds := (n : ℚ), pauseTimerText := (n : ℚ) } }
      else w
  | none => w

/-- The persisted settings blob, with the timeout field optional (absent,
undefined or NaN are modelled as none). -/
structure SettingsBlob where
  timeout : Option ℚ
  lightMode : Bool
  deriving Repr, DecidableEq

/-- Source: loadSettings.  When a settings blob was persisted, apply
settings.timeout with JavaScript truthiness fallback to the default
(zero, NaN and a missing field fall back; every other number, in range
or not, is applied) and refresh the displays.  Read failures and a
missing blob are a no-op. -/
def loadSettings (stored : Option SettingsBlob) (w : World) : World :=
  match stored with
  | some s =>
      let t : ℚ := match s.timeout with
        | some q => if q = 0 then DEFAULT_TIMEOUT else q
        | none => DEFAULT_TIMEOUT
      { w with st := { w.st with timeoutSeconds := t, pauseTimerText := t } }
  | none => w

/-- The persisted draft blob. -/
structure Draft where
  text : List Char
  wordCount : Nat
  deriving Repr, DecidableEq

/-- Source: loadDraft.  When a draft with truthy (nonempty) text was
persisted, start a session with that text; otherwise do nothing.  Note:
the source does not reset an active session first. -/
def loadDraft (stored : Option Draft) (w : World) : World :=
  match stored with
  | some d => if d.text ≠ [] then startSession (some d.text) w else w
  | none => w

/-- External stimuli, with the DOM state gating each handler exactly as
the page does: a disabled textarea fires no input events, a hidden start
button and a disabled reset button cannot be clicked; the load button and
the timeout setting are always operable. -/
inductive ExtEv
  | input (newText : List Char)
  | startClick
  | loadClick (stored : Option Draft)
  | resetClick
  | timeoutChange (v : Option Int)
  deriving Repr, DecidableEq

/-- Dispatch one external stimulus through the page's event bindings. -/
def handleExt (e : ExtEv) (w : World) : World :=
  match e with
  | ExtEv.input t => if w.st.textAreaDisabled then w else handleInput t w
  | ExtEv.startClick => if w.st.startButtonVisible then startSession none w else w
  | ExtEv.loadClick d => loadDraft d w
  | ExtEv.resetClick => if w.st.resetDisabled then w else resetSession w
  | ExtEv.timeoutChange v => handleTimeoutChange v w

/-- The pending timer that fires next: smallest due time, ties broken by
registration order (smaller handle). -/
def minTimer? (ts : List Timer) : Option Timer :=
  ts.foldl (fun acc tm =>
    match acc with
    | none => some tm
    | some a =>
        if tm.due < a.due ∨ (tm.due = a.due ∧ tm.id < a.id) then some tm
        else some a) none

/-- Fire one timer: advance the clock to its due time, deregister a
one-shot or reschedule an interval, then run its callback body. -/
def fireTimer (w : World) (tm : Timer) : World :=
  let wq := match tm.period with
    | none =>
        { w with now := tm.due,
                 timers := w.timers.filter (fun x => x.id ≠ tm.id) }
    | some p =>
        { w with now := tm.due,
                 timers := w.timers.map (fun x =>
                   if x.id = tm.id then { x with due := x.due + p } else x) }
  match tm.cb with
  | Cb.grace =>
      -- the grace callback nulls the handle and begins the countdown
      beginActiveCountdown { wq with st := { wq.st with graceTimerId := none } }
  | Cb.countdownTick => countdownTickBody wq
  | Cb.elapsedTick => elapsedTickBody wq
  | Cb.deletedTimeout => { wq with st := { wq.st with deletedClass := false } }

/-- One scheduling step: process the earliest pending occurrence among
the registered timers and the (time-sorted) external stimuli; a timer due
no later than the next stimulus fires first.  Returns none when nothing
is pending. -/
def stepW (w : World) (exts : List (Nat × ExtEv)) :
    Option (World × List (Nat × ExtEv)) :=
  match minTimer? w.timers, exts with
  | none, [] => none
  | some tm, [] => some (fireTimer w tm, [])
  | none, (t, e) :: rest => some (handleExt e { w with now := t }, rest)
  | some tm, (t, e) :: rest =>
      if tm.due ≤ t then some (fireTimer w tm, exts)
      else some (handleExt e { w with now := t }, rest)

/-- Run the scheduler for at most fuel steps. -/
def runSim : Nat → World → List (Nat × ExtEv) → World
  | 0, w, _ => w
  | fuel + 1, w, exts =>
      match stepW w exts with
      | none => w
      | some p => runSim fuel p.1 p.2

/-- The page as loaded, before any interaction: idle state at clock time
t0 with the configured timeout T, textarea disabled, start button shown. -/
def initWorld (t0 : Nat) (T : ℚ) : World where
  now := t0
  nextId := 0
  timers := []
  st := {
    isActive := false
    countdownActive := false
    startTime := none
    countdownStart := none
    timeoutSeconds := T
    graceTimerId := none
    countdownTimerId := none
    elapsedTimerId := none
    heartbeatCount := 0
    lastBeatTime := 0
    bufferText := []
    textAreaDisabled := true
    startButtonVisible := true
    saveDisabled := true
    resetDisabled := true
    wordCountText := 0
    elapsedTimeText := 0
    pauseTimerText := T
    progressWidth := 1
    progressContainerActive := false
    countdownClass := false
    heartbeatClass := false
    deletedClass := false }
  events := []

/-! General list facts used for the word-count analysis. -/

theorem dropWhile_dropWhile (p : α → Bool) (l : List α) :
    (l.dropWhile p).dropWhile p = l.dropWhile p := by
  induction l with
  | nil => rfl
  | cons a l ih =>
    by_cases h : p a
    · simpa [List.dropWhile_cons, h] using ih
    · simp [List.dropWhile_cons, h]

theorem dropWhile_suffix (p : α → Bool) (l : List α) :
    l.dropWhile p <:+ l := by
  induction l with
  | nil => exact List.suffix_refl _
  | cons a l ih =>
    by_cases h : p a
    · simpa [List.dropWhile_cons, h] using ih.trans (List.suffix_cons a l)
    · simp [List.dropWhile_cons, h]

theorem head?_of_pref {l₁ l₂ : List α} (h : l₁ <+: l₂) (hne : l₁ ≠ []) :
    l₂.head? = l₁.head? := by
  obtain ⟨t, rfl⟩ := h
  cases l₁ with
  | nil => exact absurd rfl hne
  | cons a l => rfl

/-- Trimming is a prefix of the head-trimmed list. -/
theorem trimC_prefix_dropWhile (l : List Char) :
    trimC l <+: l.dropWhile isWs := by
  have h : ((l.dropWhile isWs).reverse.dropWhile isWs).reverse <+:
      (l.dropWhile isWs).reverse.reverse :=
    List.reverse_prefix.mpr (dropWhile_suffix isWs _)
  simpa [trimC] using h

theorem trimC_head_not_ws (l : List Char) (c : Char)
    (hc : (trimC l).head? = some c) : isWs c = false := by
  have hne : trimC l ≠ [] := by
    intro h; rw [h] at hc; exact Option.noConfusion hc
  have hpre := trimC_prefix_dropWhile l
  have hh : (l.dropWhile isWs).head? = some c := by
    rw [head?_of_pref hpre hne]; exact hc
  have := List.head?_dropWhile_not isWs l
  rw [hh] at this
  exact this

theorem dropWhile_trimC (l : List Char) :
    (trimC l).dropWhile isWs = trimC l := by
  cases h : trimC l with
  | nil => simp
  | cons c t =>
    have hc : (trimC l).head? = some c := by rw [h]; rfl
    have := trimC_head_not_ws l c hc
    simp [List.dropWhile_cons, this]

/-- Trimming is idempotent. -/
theorem trimC_trimC (l : List Char) : trimC (trimC l) = trimC l := by
  conv_lhs => rw [trimC]
  rw [dropWhile_trimC, trimC, List.reverse_reverse, dropWhile_dropWhile]

/-- Counting words of already-trimmed text changes nothing. -/
theorem countWords_trimC (l : List Char) :
    countWords (trimC l) = countWords l := by
  unfold countWords
  rw [trimC_trimC]

theorem countWords_nil : countWords [] = 0 := rfl

theorem trimC_ne_nil_of_countWords {l : List Char} (h : 1 ≤ countWords l) :
    trimC l ≠ [] := by
  intro hnil
  rw [countWords, hnil] at h
  simp at h

/-! Closed-form characterizations of the timer-cleanup helpers. -/

theorem clearAllTimers_eq (w : World) :
    clearAllTimers w = { w with
      timers := w.timers.filter (fun tm =>
        decide (some tm.id ≠ w.st.graceTimerId) &&
        (decide (some tm.id ≠ w.st.countdownTimerId) &&
         decide (some tm.id ≠ w.st.elapsedTimerId))),
      st := { w.st with
        graceTimerId := none, countdownTimerId := none, elapsedTimerId := none } } := by
  unfold clearAllTimers
  cases hg : w.st.graceTimerId <;>
    cases hc : w.st.countdownTimerId <;>
      cases he : w.st.elapsedTimerId <;>
        simp_all [clearTimerW, World.ext_iff, St.ext_iff, List.filter_filter,
          Bool.and_assoc, Bool.and_comm, Bool.and_left_comm]

theorem stopCountdown_eq (w : World) :
    stopCountdown w = { w with
      timers := w.timers.filter (fun tm =>
        decide (some tm.id ≠ w.st.graceTimerId) &&
        decide (some tm.id ≠ w.st.countdownTimerId)),
      st := { w.st with
        graceTimerId := none, countdownTimerId := none,
        countdownActive := false, countdownStart := none,
        heartbeatCount := 0, progressWidth := 1,
        progressContainerActive := false, countdownClass := false,
        heartbeatClass := false, pauseTimerText := w.st.timeoutSeconds } } := by
  unfold stopCountdown
  cases hg : w.st.graceTimerId <;>
    cases hc : w.st.countdownTimerId <;>
      simp_all [clearTimerW, World.ext_iff, St.ext_iff, List.filter_filter,
        Bool.and_assoc, Bool.and_comm, Bool.and_left_comm]

theorem startCountdown_eq (w : World) :
    startCountdown w = { w with
      nextId := w.nextId + 1,
      timers := w.timers.filter (fun tm => decide (some tm.id ≠ w.st.graceTimerId)) ++
        [⟨w.nextId, Cb.grace, w.now + 1000, none⟩],
      st := { w.st with graceTimerId := some w.nextId } } := by
  unfold startCountdown
  cases hg : w.st.graceTimerId <;>
    simp_all [clearTimerW, setTimeoutW, World.ext_iff, St.ext_iff]

theorem resetSession_eq (w : World) :
    resetSession w = { w with
      timers := w.timers.filter (fun tm =>
        decide (some tm.id ≠ w.st.graceTimerId) &&
        (decide (some tm.id ≠ w.st.countdownTimerId) &&
         decide (some tm.id ≠ w.st.elapsedTimerId))),
      st := { w.st with
        graceTimerId := none, countdownTimerId := none, elapsedTimerId := none,
        countdownActive := false, countdownStart := none,
        heartbeatCount := 0, progressWidth := 1,
        progressContainerActive := false, countdownClass := false,
        heartbeatClass := false, pauseTimerText := w.st.timeoutSeconds,
        isActive := false, startTime := none, bufferText := [],
        textAreaDisabled := true, startButtonVisible := true,
        wordCountText := 0, elapsedTimeText := 0,
        saveDisabled := true, resetDisabled := true } } := by
  unfold resetSession
  simp only [clearAllTimers_eq, stopCountdown_eq]
  simp [World.ext_iff, St.ext_iff, List.filter_filter, Bool.and_assoc, Bool.and_comm, Bool.and_left_comm]

/-! Arithmetic facts about the sampling formulas. -/

theorem sampleRemaining_nonneg (T cs now : ℚ) : 0 ≤ sampleRemaining T cs now :=
  le_max_left _ _

theorem sampleRemaining_nonpos_iff (T cs now : ℚ) :
    sampleRemaining T cs now ≤ 0 ↔ cs + 1000 * T ≤ now := by
  unfold sampleRemaining
  rw [max_le_iff]
  constructor
  · rintro ⟨-, h⟩
    linarith
  · intro h
    exact ⟨le_refl 0, by linarith⟩

theorem sampleRemaining_antitone (T cs : ℚ) {n m : ℚ} (h : n ≤ m) :
    sampleRemaining T cs m ≤ sampleRemaining T cs n := by
  unfold sampleRemaining
  exact max_le_max (le_refl 0) (by linarith)

theorem sampleProgress_antitone (T cs : ℚ) (hT : 0 < T) {n m : ℚ} (h : n ≤ m) :
    sampleProgress T cs m ≤ sampleProgress T cs n := by
  unfold sampleProgress
  exact div_le_div_of_nonneg_right (sampleRemaining_antitone T cs h) hT.le

theorem sampleProgress_nonneg (T cs now : ℚ) (hT : 0 < T) :
    0 ≤ sampleProgress T cs now :=
  div_nonneg (sampleRemaining_nonneg T cs now) hT.le

theorem sampleProgress_eq_zero_iff (T cs now : ℚ) (hT : 0 < T) :
    sampleProgress T cs now = 0 ↔ sampleRemaining T cs now = 0 := by
  unfold sampleProgress
  rw [div_eq_zero_iff]
  constructor
  · rintro (h | h)
    · exact h
    · exact absurd h hT.ne.symm
  · exact Or.inl

/-! Characterizations of the session operations. -/

theorem archived_decide_eq (b : List Char) :
    decide (trimC b ≠ [] ∧ 3 ≤ countWords (trimC b)) =
      decide (3 ≤ countWords b) := by
  rw [countWords_trimC]
  apply decide_eq_decide.mpr
  constructor
  · exact fun h => h.2
  · exact fun h => ⟨trimC_ne_nil_of_countWords (by omega), h⟩

theorem handleTextDeletion_eq (w : World) :
    handleTextDeletion w = { w with
      nextId := w.nextId + 1,
      timers := w.timers.filter (fun tm =>
        decide (some tm.id ≠ w.st.graceTimerId) &&
        (decide (some tm.id ≠ w.st.countdownTimerId) &&
         decide (some tm.id ≠ w.st.elapsedTimerId))) ++
        [⟨w.nextId, Cb.deletedTimeout, w.now + 500, none⟩],
      st := { w.st with
        graceTimerId := none, countdownTimerId := none, elapsedTimerId := none,
        isActive := false, countdownActive := false, startTime := none,
        bufferText := [], textAreaDisabled := true, startButtonVisible := true,
        wordCountText := 0, elapsedTimeText := 0,
        pauseTimerText := w.st.timeoutSeconds, progressWidth := 1,
        progressContainerActive := false, countdownClass := false,
        heartbeatClass := false, saveDisabled := true, resetDisabled := true,
        deletedClass := true },
      events := w.events ++
        [Ev.textDestroyed w.now (trimC w.st.bufferText)
          (countWords w.st.bufferText) (decide (3 ≤ countWords w.st.bufferText))] } := by
  unfold handleTextDeletion
  simp only [clearAllTimers_eq, setTimeoutW]
  simp [World.ext_iff, St.ext_iff, countWords_trimC]
  exact fun h => trimC_ne_nil_of_countWords (by omega)

/-- Closed form of the countdown sampling callback. -/
theorem countdownTickBody_eq (w : World) (cs : Nat)
    (hcs : w.st.countdownStart = some cs) :
    countdownTickBody w =
      (let remaining := sampleRemaining w.st.timeoutSeconds (cs : ℚ) (w.now : ℚ)
       let progress := remaining / w.st.timeoutSeconds
       let currentBeat := (w.now - cs) / 1000
       let w1 := { w with
          st := { w.st with progressWidth := progress, pauseTimerText := remaining },
          events := w.events ++ [Ev.decayTick w.now progress remaining] }
       let w2 := if w1.st.heartbeatCount < currentBeat then
          { w1 with st := { w1.st with
              heartbeatCount := currentBeat, lastBeatTime := w.now,
              heartbeatClass := true } }
         else w1
       if remaining ≤ 0 then handleTextDeletion w2 else w2) := by
  simp only [countdownTickBody, hcs, Option.getD_some]

theorem handleInput_eq (txt : List Char) (w : World) :
    handleInput txt w = startCountdown { w with
      timers := w.timers.filter (fun tm =>
        decide (some tm.id ≠ w.st.graceTimerId) &&
        decide (some tm.id ≠ w.st.countdownTimerId)),
      st := { w.st with
        bufferText := txt, wordCountText := countWords txt,
        graceTimerId := none, countdownTimerId := none, countdownActive := false,
        countdownStart := none, heartbeatCount := 0, progressWidth := 1,
        progressContainerActive := false, countdownClass := false,
        heartbeatClass := false, pauseTimerText := w.st.timeoutSeconds } } := by
  unfold handleInput
  simp only [stopCountdown_eq, startCountdown_eq]

/-- Shared closed form of the events produced by one countdown sample. -/
theorem tick_events_closed_form (w : World) (cs : Nat)
    (hcs : w.st.countdownStart = some cs) :
    (countdownTickBody w).events = w.events ++
      Ev.decayTick w.now
        (sampleProgress w.st.timeoutSeconds (cs : ℚ) (w.now : ℚ))
        (sampleRemaining w.st.timeoutSeconds (cs : ℚ) (w.now : ℚ)) ::
      (if (cs : ℚ) + 1000 * w.st.timeoutSeconds ≤ (w.now : ℚ) then
        [Ev.textDestroyed w.now (trimC w.st.bufferText) (countWords w.st.bufferText)
          (decide (3 ≤ countWords w.st.bufferText))]
       else []) := by
  rw [countdownTickBody_eq w cs hcs]
  by_cases hd : sampleRemaining w.st.timeoutSeconds (cs : ℚ) (w.now : ℚ) ≤ 0 <;>
    by_cases hb : w.st.heartbeatCount < (w.now - cs) / 1000 <;>
      simp [hd, hb, handleTextDeletion_eq, sampleProgress,
        ← sampleRemaining_nonpos_iff]

/-! Claim theorems. -/

/-- C1: during a Decaying phase every sample recomputes elapsed time from
the wall clock: the emitted sample carries
remaining = max(0, timeoutSeconds - (now - decayStartedAt) / 1000) and
progress = remaining / timeoutSeconds, and the TextDestroyed deletion is
triggered at a sample exactly when the wall clock has reached the
deadline decayStartedAt + 1000 * timeoutSeconds — equivalently at the
first sample where remaining is no longer positive — with no tick counter
involved in the remaining computation. -/
theorem decaying_sample_recomputes_from_clock (w : World) (cs : Nat)
    (hcs : w.st.countdownStart = some cs) :
    (countdownTickBody w).events = w.events ++
      Ev.decayTick w.now
        (sampleProgress w.st.timeoutSeconds (cs : ℚ) (w.now : ℚ))
        (sampleRemaining w.st.timeoutSeconds (cs : ℚ) (w.now : ℚ)) ::
      (if (cs : ℚ) + 1000 * w.st.timeoutSeconds ≤ (w.now : ℚ) then
        [Ev.textDestroyed w.now (trimC w.st.bufferText) (countWords w.st.bufferText)
          (decide (3 ≤ countWords w.st.bufferText))]
       else []) :=
  tick_events_closed_form w cs hcs

/-- A concrete mid-decay world: countdown started at 1000 ms, sampled at
2000 ms, timeout 5 s. -/
def wC1 : World :=
  { initWorld 2000 5 with
    st := { (initWorld 2000 5).st with countdownStart := some 1000 } }

theorem decaying_sample_recomputes_witness :
    wC1.st.countdownStart = some 1000 ∧
    (countdownTickBody wC1).events = wC1.events ++
      Ev.decayTick wC1.now
        (sampleProgress wC1.st.timeoutSeconds ((1000 : ℕ) : ℚ) (wC1.now : ℚ))
        (sampleRemaining wC1.st.timeoutSeconds ((1000 : ℕ) : ℚ) (wC1.now : ℚ)) ::
      (if ((1000 : ℕ) : ℚ) + 1000 * wC1.st.timeoutSeconds ≤ (wC1.now : ℚ) then
        [Ev.textDestroyed wC1.now (trimC wC1.st.bufferText)
          (countWords wC1.st.bufferText)
          (decide (3 ≤ countWords wC1.st.bufferText))]
       else []) :=
  ⟨rfl, decaying_sample_recomputes_from_clock wC1 1000 rfl⟩

/-- Interaction trace for the mid-decay progress jump: a session starts
at t = 0 with timeout 2 s; the grace fires at 1000 ms; the setting is
changed to 30 s at t = 1150 ms, between two samples of the same
Decaying phase. -/
def c4Evs : List (Nat × ExtEv) :=
  [(0, ExtEv.startClick), (1150, ExtEv.timeoutChange (some 30))]

set_option maxRecDepth 8000 in
/-- C4 counterexample: within a single Decaying phase (countdownStart
stays 1000 and the phase stays active throughout), the sample at 1100 ms
emits progress 19/20 and the very next sample at 1200 ms emits progress
149/150, because an in-range timeout change (2 to 30) landed between
them and each sample divides by the CURRENT timeoutSeconds. So the
emitted progress is not monotonically non-increasing across successive
samples of one Decaying phase, refuting the claim as stated. -/
theorem progress_monotone_counterexample :
    Ev.decayTick 1100 (19 / 20) (19 / 10) ∈
      (runSim 8 (initWorld 0 2) c4Evs).events ∧
    Ev.decayTick 1200 (149 / 150) (149 / 5) ∈
      (runSim 8 (initWorld 0 2) c4Evs).events ∧
    (runSim 8 (initWorld 0 2) c4Evs).st.countdownStart = some 1000 ∧
    (runSim 8 (initWorld 0 2) c4Evs).st.countdownActive = true ∧
    (19 : ℚ) / 20 < 149 / 150 ∧ (1100 : ℕ) < 1200 := by
  refine ⟨?_, ?_, ?_, ?_, by norm_num, by norm_num⟩
  · with_unfolding_all decide
  · with_unfolding_all decide
  · with_unfolding_all decide
  · with_unfolding_all decide

/-- C4 amended: as long as timeoutSeconds is not changed between the two
samples, the emitted progress is monotonically non-increasing across
samples of a Decaying phase (it is antitone in the sample time for any
fixed timeout and phase start); any activity resets the displayed
progress to 1.0 (and leaves the Decaying phase); and the baseline decay
intensity (1 - progress) * 10 is bounded by its maximum 10, attained
exactly when remaining reaches 0. A mid-phase setting change breaks the
monotonicity, as the tick recomputes progress from the current value. -/
theorem progress_monotone_and_intensity_max :
    (∀ T cs n m : ℚ, 0 < T → n ≤ m →
        sampleProgress T cs m ≤ sampleProgress T cs n) ∧
    (∀ (txt : List Char) (w : World),
        (handleInput txt w).st.progressWidth = 1 ∧
        (handleInput txt w).st.countdownActive = false) ∧
    (∀ T cs now : ℚ, 0 < T →
        baseBlur (sampleProgress T cs now) ≤ 10 ∧
        (baseBlur (sampleProgress T cs now) = 10 ↔
          sampleRemaining T cs now = 0)) := by
  refine ⟨fun T cs n m hT h => sampleProgress_antitone T cs hT h, ?_, ?_⟩
  · intro txt w
    rw [handleInput_eq]
    simp [startCountdown_eq]
  · intro T cs now hT
    have hp := sampleProgress_nonneg T cs now hT
    constructor
    · unfold baseBlur
      linarith
    · unfold baseBlur
      rw [← sampleProgress_eq_zero_iff T cs now hT]
      constructor <;> intro h <;> linarith

theorem progress_monotone_witness :
    (0 : ℚ) < 5 ∧ (1000 : ℚ) ≤ 2000 ∧
    sampleProgress 5 0 2000 ≤ sampleProgress 5 0 1000 :=
  ⟨by norm_num, by norm_num,
    progress_monotone_and_intensity_max.1 5 0 1000 2000 (by norm_num) (by norm_num)⟩

/-- C8: on every TextDestroyed event the buffer is handed to the
history-archival collaborator if and only if its word count (runs of
non-whitespace after trimming; empty or whitespace-only counts 0) is at
least 3, and afterwards the buffer is cleared and the session inactive. -/
theorem textDestroyed_archival_threshold (w : World) :
    (handleTextDeletion w).events = w.events ++
      [Ev.textDestroyed w.now (trimC w.st.bufferText) (countWords w.st.bufferText)
        (decide (3 ≤ countWords w.st.bufferText))] ∧
    (handleTextDeletion w).st.bufferText = [] ∧
    (handleTextDeletion w).st.isActive = false := by
  simp [handleTextDeletion_eq]

/-- C9: session reset is idempotent, cancels every tracked pending
callback unconditionally, and leaves the engine idle; it is safe to call
in any state, including with no active session. -/
theorem stop_idempotent_and_safe :
    (∀ w : World, resetSession (resetSession w) = resetSession w) ∧
    (∀ w : World, (resetSession w).st.isActive = false ∧
        (resetSession w).st.countdownActive = false ∧
        (resetSession w).st.graceTimerId = none ∧
        (resetSession w).st.countdownTimerId = none ∧
        (resetSession w).st.elapsedTimerId = none) ∧
    (∀ w : World,
        (∀ tm ∈ w.timers, some tm.id = w.st.graceTimerId ∨
          some tm.id = w.st.countdownTimerId ∨ some tm.id = w.st.elapsedTimerId) →
        (resetSession w).timers = []) := by
  refine ⟨?_, ?_, ?_⟩
  · intro w
    simp [resetSession_eq, World.ext_iff, St.ext_iff]
  · intro w
    simp [resetSession_eq]
  · intro w h
    rw [resetSession_eq]
    simp only [List.filter_eq_nil_iff]
    intro tm htm
    rcases h tm htm with h1 | h1 | h1 <;> simp [← h1]

theorem stop_idempotent_witness :
    (resetSession (startCountdown (initWorld 0 5))).timers = [] :=
  stop_idempotent_and_safe.2.2 (startCountdown (initWorld 0 5)) (by decide)

/-- C10: neither session reset nor the destructive deletion path writes
the configured timeoutSeconds, and neither do activity handling or
session start. -/
theorem timeout_setting_frame (w : World) :
    (∀ txt : List Char,
        (handleInput txt w).st.timeoutSeconds = w.st.timeoutSeconds) ∧
    (resetSession w).st.timeoutSeconds = w.st.timeoutSeconds ∧
    (handleTextDeletion w).st.timeoutSeconds = w.st.timeoutSeconds ∧
    (∀ it : Option (List Char),
        (startSession it w).st.timeoutSeconds = w.st.timeoutSeconds) := by
  refine ⟨?_, ?_, ?_, ?_⟩ <;>
    simp [handleInput_eq, startCountdown_eq, resetSession_eq,
      handleTextDeletion_eq, startSession, startElapsedTimer, setIntervalW]

/-- Interaction trace for the mid-decay timeout change: a session starts
at t = 0 with timeout 5 s; the grace fires at 1000 ms; the setting is
changed to 2 s at t = 2000 ms, while the countdown is sampling. -/
def c5Evs : List (Nat × ExtEv) :=
  [(0, ExtEv.startClick), (2000, ExtEv.timeoutChange (some 2))]

set_option maxRecDepth 8000 in
/-- C5 counterexample: after changing the timeout from 5 to 2 mid-decay,
the very next sample (at 2100 ms, 1.1 s into the decay that entered with
timeout 5) reports remaining = 0.9 s — computed from the new value 2,
not from the value 5 captured at Decaying entry, which would give 3.9 s.
So the in-flight decay is retroactively rescaled. -/
theorem timeout_change_mid_decay_counterexample :
    Ev.decayTick 2100 (9 / 20) (9 / 10) ∈
      (runSim 16 (initWorld 0 5) c5Evs).events ∧
    sampleRemaining 5 1000 2100 = 39 / 10 ∧ (9 : ℚ) / 10 ≠ 39 / 10 := by
  refine ⟨by with_unfolding_all decide, ?_, by norm_num⟩
  unfold sampleRemaining
  norm_num

/-- C5 amended: remaining and progress are recomputed from the CURRENT
timeoutSeconds at every sample; an in-range TimeoutSettingChanged during
a Decaying phase takes effect immediately at the next sample (the phase
itself, its start time and its active flag are untouched), so the
in-flight decay is rescaled rather than finishing under the old value. -/
theorem timeout_change_applies_at_next_sample (w : World) (cs : Nat) (n : Int)
    (hcs : w.st.countdownStart = some cs) (h1 : 1 ≤ n) (h2 : n ≤ 30) :
    ((handleTimeoutChange (some n) w).st.timeoutSeconds = (n : ℚ)) ∧
    ((handleTimeoutChange (some n) w).st.countdownStart = some cs) ∧
    ((handleTimeoutChange (some n) w).st.countdownActive = w.st.countdownActive) ∧
    ((countdownTickBody (handleTimeoutChange (some n) w)).events =
      (handleTimeoutChange (some n) w).events ++
        Ev.decayTick w.now
          (sampleProgress (n : ℚ) (cs : ℚ) (w.now : ℚ))
          (sampleRemaining (n : ℚ) (cs : ℚ) (w.now : ℚ)) ::
        (if (cs : ℚ) + 1000 * (n : ℚ) ≤ (w.now : ℚ) then
          [Ev.textDestroyed w.now (trimC w.st.bufferText)
            (countWords w.st.bufferText)
            (decide (3 ≤ countWords w.st.bufferText))]
         else [])) := by
  have hw : handleTimeoutChange (some n) w = { w with st := { w.st with
      timeoutSeconds := (n : ℚ), pauseTimerText := (n : ℚ) } } := by
    simp only [handleTimeoutChange]
    rw [if_pos ⟨h1, h2⟩]
  rw [hw]
  refine ⟨rfl, hcs, rfl, ?_⟩
  exact tick_events_closed_form _ cs hcs

theorem timeout_change_applies_witness :
    wC1.st.countdownStart = some 1000 ∧ (1 : Int) ≤ 2 ∧ (2 : Int) ≤ 30 ∧
    (handleTimeoutChange (some 2) wC1).st.timeoutSeconds = ((2 : Int) : ℚ) :=
  ⟨rfl, by norm_num, by norm_num,
    (timeout_change_applies_at_next_sample wC1 1000 2 rfl (by norm_num)
      (by norm_num)).1⟩

/-- Interaction trace for the draft-load leak: a session starts at t = 0;
the grace fires at 1000 ms and the countdown interval is sampling; at
t = 1500 ms the user clicks Load Draft with a non-empty stored draft,
which starts a second session without any reset. -/
def c6Evs : List (Nat × ExtEv) :=
  [(0, ExtEv.startClick),
   (1500, ExtEv.loadClick (some ⟨['h', 'e', 'l', 'l', 'o'], 1⟩))]

set_option maxRecDepth 8000 in
/-- C6 failing run: loading a draft during an active session schedules a
second elapsed-time interval without cancelling the first (two elapsed
chains pending right after the load), and once the new grace fires a
second countdown-sampling interval coexists with the old one (two
countdown chains pending).  The claimed cancel-before-schedule invariant
is violated by the session-start and draft-load paths. -/
theorem load_draft_leaks_timer_chains :
    ((runSim 9 (initWorld 0 5) c6Evs).timers.filter
        (fun tm => decide (tm.cb = Cb.elapsedTick))).length = 2 ∧
    ((runSim 22 (initWorld 0 5) c6Evs).timers.filter
        (fun tm => decide (tm.cb = Cb.countdownTick))).length = 2 := by
  constructor <;> with_unfolding_all decide

/-- C7 counterexample: a persisted timeout of 31 (outside [1, 30]) is
applied verbatim by loadSettings at startup — the prior value 5 is not
retained, contradicting the claimed rejection at the configuration
boundary for values re-applied from the settings store. -/
theorem config_load_out_of_range_counterexample :
    (initWorld 0 5).st.timeoutSeconds = 5 ∧
    (loadSettings (some ⟨some 31, false⟩) (initWorld 0 5)).st.timeoutSeconds = 31 ∧
    ¬((31 : ℚ) ≤ 30) :=
  ⟨rfl, rfl, by norm_num⟩

/-- C7 amended: at the settings-change handler a value outside [1, 30]
(or an unparseable value) is rejected with the prior timeoutSeconds
retained and no crash, and in-range integers are accepted; but the values
re-applied on startup by loadSettings are not range-checked: any nonzero
stored number is applied verbatim, and only zero, NaN or a missing field
fall back to the default of 5. -/
theorem config_boundary_amended :
    (∀ (w : World) (n : Int), ¬(1 ≤ n ∧ n ≤ 30) →
        handleTimeoutChange (some n) w = w) ∧
    (∀ w : World, handleTimeoutChange none w = w) ∧
    (∀ (w : World) (n : Int), 1 ≤ n → n ≤ 30 →
        (handleTimeoutChange (some n) w).st.timeoutSeconds = (n : ℚ)) ∧
    (∀ (w : World) (q : ℚ) (b : Bool), q ≠ 0 →
        (loadSettings (some ⟨some q, b⟩) w).st.timeoutSeconds = q) ∧
    (∀ (w : World) (b : Bool),
        (loadSettings (some ⟨some 0, b⟩) w).st.timeoutSeconds = DEFAULT_TIMEOUT ∧
        (loadSettings (some ⟨none, b⟩) w).st.timeoutSeconds = DEFAULT_TIMEOUT ∧
        loadSettings none w = w) := by
  refine ⟨?_, ?_, ?_, ?_, ?_⟩
  · intro w n h
    simp only [handleTimeoutChange]
    rw [if_neg h]
  · intro w; rfl
  · intro w n h1 h2
    simp only [handleTimeoutChange]
    rw [if_pos ⟨h1, h2⟩]
  · intro w q b hq
    simp only [loadSettings]
    simp [hq]
  · intro w b
    refine ⟨?_, rfl, rfl⟩
    simp only [loadSettings]
    simp

theorem config_boundary_witness :
    ¬((1 : Int) ≤ 31 ∧ (31 : Int) ≤ 30) ∧
    handleTimeoutChange (some 31) (initWorld 0 5) = initWorld 0 5 :=
  ⟨by norm_num, config_boundary_amended.1 (initWorld 0 5) 31 (by norm_num)⟩

/-! Scheduler stepping lemmas. -/

theorem runSim_step (fuel : Nat) (w w' : World) (exts exts' : List (Nat × ExtEv))
    (h : stepW w exts = some (w', exts')) :
    runSim (fuel + 1) w exts = runSim fuel w' exts' := by
  simp [runSim, h]

theorem runSim_stuck (fuel : Nat) (w : World) (exts : List (Nat × ExtEv))
    (h : stepW w exts = none) : runSim fuel w exts = w := by
  cases fuel <;> simp [runSim, h]

theorem minTimer_nil : minTimer? [] = none := rfl

theorem minTimer_single (a : Timer) : minTimer? [a] = some a := rfl

theorem minTimer_pair (a b : Timer) :
    minTimer? [a, b] =
      some (if b.due < a.due ∨ (b.due = a.due ∧ b.id < a.id) then b else a) := by
  simp only [minTimer?, List.foldl]
  split <;> rfl

theorem stepW_no_work (w : World) (h : w.timers = []) : stepW w [] = none := by
  simp [stepW, h, minTimer_nil]

theorem runSim_no_timers (fuel : Nat) (w : World) (h : w.timers = []) :
    runSim fuel w [] = w :=
  runSim_stuck fuel w [] (stepW_no_work w h)

/-- After the destructive deletion, only the 500 ms CSS-class one-shot is
pending; it fires without recording any event, and then the run is idle. -/
theorem runSim_after_deletion (fuel : Nat) (w : World) (i d : Nat)
    (h : w.timers = [⟨i, Cb.deletedTimeout, d, none⟩]) :
    (runSim fuel w []).events = w.events := by
  cases fuel with
  | zero => rfl
  | succ f =>
    have hstep : stepW w [] =
        some (fireTimer w ⟨i, Cb.deletedTimeout, d, none⟩, []) := by
      simp [stepW, h, minTimer_single]
    rw [runSim_step f _ _ _ _ hstep]
    have ht : (fireTimer w ⟨i, Cb.deletedTimeout, d, none⟩).timers = [] := by
      simp [fireTimer, h]
    rw [runSim_no_timers f _ ht]
    simp [fireTimer]

/-- Casting the deadline comparison to natural-number milliseconds. -/
theorem deadline_cast (T cs now : ℕ) :
    ((cs : ℚ) + 1000 * (T : ℚ) ≤ (now : ℚ)) ↔ cs + 1000 * T ≤ now := by
  constructor
  · intro h; exact_mod_cast h
  · intro h; exact_mod_cast h

/-- A countdown sample strictly before the deadline changes only the
displayed progress values, the heartbeat bookkeeping and the event log. -/
theorem countdownTickBody_no_delete (w : World) (cs : Nat)
    (hcs : w.st.countdownStart = some cs)
    (hno : ¬ ((cs : ℚ) + 1000 * w.st.timeoutSeconds ≤ (w.now : ℚ))) :
    (countdownTickBody w).timers = w.timers ∧
    (countdownTickBody w).now = w.now ∧
    (countdownTickBody w).nextId = w.nextId ∧
    (countdownTickBody w).events = w.events ++
      [Ev.decayTick w.now (sampleProgress w.st.timeoutSeconds (cs : ℚ) (w.now : ℚ))
        (sampleRemaining w.st.timeoutSeconds (cs : ℚ) (w.now : ℚ))] ∧
    (countdownTickBody w).st.isActive = w.st.isActive ∧
    (countdownTickBody w).st.countdownActive = w.st.countdownActive ∧
    (countdownTickBody w).st.startTime = w.st.startTime ∧
    (countdownTickBody w).st.countdownStart = w.st.countdownStart ∧
    (countdownTickBody w).st.timeoutSeconds = w.st.timeoutSeconds ∧
    (countdownTickBody w).st.graceTimerId = w.st.graceTimerId ∧
    (countdownTickBody w).st.countdownTimerId = w.st.countdownTimerId ∧
    (countdownTickBody w).st.elapsedTimerId = w.st.elapsedTimerId ∧
    (countdownTickBody w).st.bufferText = w.st.bufferText ∧
    (countdownTickBody w).st.textAreaDisabled = w.st.textAreaDisabled := by
  have hr : ¬ (sampleRemaining w.st.timeoutSeconds (cs : ℚ) (w.now : ℚ) ≤ 0) := by
    rw [sampleRemaining_nonpos_iff]; exact hno
  rw [countdownTickBody_eq w cs hcs]
  by_cases hb : w.st.heartbeatCount < (w.now - cs) / 1000 <;>
    simp [hb, hr, sampleProgress]

/-- A countdown sample at or past the deadline records the sample and the
destruction, clears every tracked timer and schedules only the 500 ms
CSS-class one-shot. -/
theorem countdownTickBody_deletes (w : World) (cs : Nat)
    (hcs : w.st.countdownStart = some cs)
    (hyes : (cs : ℚ) + 1000 * w.st.timeoutSeconds ≤ (w.now : ℚ)) :
    (countdownTickBody w).events = w.events ++
      [Ev.decayTick w.now (sampleProgress w.st.timeoutSeconds (cs : ℚ) (w.now : ℚ))
        (sampleRemaining w.st.timeoutSeconds (cs : ℚ) (w.now : ℚ)),
       Ev.textDestroyed w.now (trimC w.st.bufferText) (countWords w.st.bufferText)
        (decide (3 ≤ countWords w.st.bufferText))] ∧
    (countdownTickBody w).timers =
      w.timers.filter (fun tm =>
        decide (some tm.id ≠ w.st.graceTimerId) &&
        (decide (some tm.id ≠ w.st.countdownTimerId) &&
         decide (some tm.id ≠ w.st.elapsedTimerId))) ++
      [⟨w.nextId, Cb.deletedTimeout, w.now + 500, none⟩] ∧
    (countdownTickBody w).now = w.now := by
  have hr : sampleRemaining w.st.timeoutSeconds (cs : ℚ) (w.now : ℚ) ≤ 0 := by
    rw [sampleRemaining_nonpos_iff]; exact hyes
  rw [countdownTickBody_eq w cs hcs]
  by_cases hb : w.st.heartbeatCount < (w.now - cs) / 1000 <;>
    simp [hb, hr, handleTextDeletion_eq, sampleProgress]

/-- The elapsed-time callback only rewrites the elapsed display. -/
theorem elapsedTickBody_eq (w : World) : ∃ q : ℚ,
    elapsedTickBody w = { w with st := { w.st with elapsedTimeText := q } } := by
  unfold elapsedTickBody
  cases h : w.st.startTime with
  | none =>
    exact ⟨w.st.elapsedTimeText, by simp [World.ext_iff, St.ext_iff]⟩
  | some t0 =>
    by_cases ha : w.st.isActive
    · exact ⟨((w.now : ℚ) - (t0 : ℚ)) / 1000, by simp [ha]⟩
    · exact ⟨w.st.elapsedTimeText, by simp [ha, World.ext_iff, St.ext_iff]⟩

/-- Invariant of the Decaying sampling loop of a session started at t0
with integer timeout T and no user activity: the elapsed interval
(handle 0) is due for its (m+1)-st fire, the countdown interval
(handle 2) for its (k+1)-st, the grace one-shot (handle 1) is gone, and
the deadline has not yet been sampled. -/
structure LoopInv (t0 : Nat) (T : ℕ) (k m : Nat) (w : World) : Prop where
  htimers : w.timers = [⟨0, Cb.elapsedTick, t0 + 1000 * (m + 1), some 1000⟩,
    ⟨2, Cb.countdownTick, t0 + 1000 + 100 * (k + 1), some 100⟩]
  hnext : w.nextId = 3
  hact : w.st.isActive = true
  hstart : w.st.startTime = some t0
  hcs : w.st.countdownStart = some (t0 + 1000)
  hTq : w.st.timeoutSeconds = (T : ℚ)
  hg : w.st.graceTimerId = none
  hc : w.st.countdownTimerId = some 2
  he : w.st.elapsedTimerId = some 0
  hbuf : w.st.bufferText = []
  hk : k + 1 ≤ 10 * T

/-- One scheduler step from a loop state in which the countdown interval
fires strictly before the deadline: a plain sample. -/
theorem loopinv_cd_step (t0 : Nat) (T k m : ℕ) (w : World)
    (inv : LoopInv t0 T k m w)
    (hlt : t0 + 1000 + 100 * (k + 1) < t0 + 1000 * (m + 1))
    (hklt : k + 1 < 10 * T) :
    ∃ w2, stepW w [] = some (w2, []) ∧ LoopInv t0 T (k + 1) m w2 ∧
      ∃ p r, w2.events = w.events ++ [Ev.decayTick (t0 + 1000 + 100 * (k + 1)) p r] := by
  have hmin : minTimer? w.timers =
      some ⟨2, Cb.countdownTick, t0 + 1000 + 100 * (k + 1), some 100⟩ := by
    rw [inv.htimers, minTimer_pair]
    simp [hlt]
  have hstep : stepW w [] =
      some (fireTimer w ⟨2, Cb.countdownTick, t0 + 1000 + 100 * (k + 1), some 100⟩,
        []) := by
    simp [stepW, hmin]
  have hfire : fireTimer w ⟨2, Cb.countdownTick, t0 + 1000 + 100 * (k + 1), some 100⟩ =
      countdownTickBody { w with
        now := t0 + 1000 + 100 * (k + 1),
        timers := [⟨0, Cb.elapsedTick, t0 + 1000 * (m + 1), some 1000⟩,
          ⟨2, Cb.countdownTick, t0 + 1000 + 100 * (k + 1) + 100, some 100⟩] } := by
    simp [fireTimer, inv.htimers]
  refine ⟨_, by rw [hstep, hfire], ?_, ?_⟩
  · have hcs2 : ({ w with
        now := t0 + 1000 + 100 * (k + 1),
        timers := [⟨0, Cb.elapsedTick, t0 + 1000 * (m + 1), some 1000⟩,
          ⟨2, Cb.countdownTick, t0 + 1000 + 100 * (k + 1) + 100, some 100⟩] } :
        World).st.countdownStart = some (t0 + 1000) := inv.hcs
    have hno : ¬ (((t0 + 1000 : ℕ) : ℚ) + 1000 * ({ w with
        now := t0 + 1000 + 100 * (k + 1),
        timers := [⟨0, Cb.elapsedTick, t0 + 1000 * (m + 1), some 1000⟩,
          ⟨2, Cb.countdownTick, t0 + 1000 + 100 * (k + 1) + 100, some 100⟩] } :
        World).st.timeoutSeconds ≤ (({ w with
        now := t0 + 1000 + 100 * (k + 1),
        timers := [⟨0, Cb.elapsedTick, t0 + 1000 * (m + 1), some 1000⟩,
          ⟨2, Cb.countdownTick, t0 + 1000 + 100 * (k + 1) + 100, some 100⟩] } :
        World).now : ℚ)) := by
      have hTq : ({ w with
          now := t0 + 1000 + 100 * (k + 1),
          timers := [⟨0, Cb.elapsedTick, t0 + 1000 * (m + 1), some 1000⟩,
            ⟨2, Cb.countdownTick, t0 + 1000 + 100 * (k + 1) + 100, some 100⟩] } :
          World).st.timeoutSeconds = (T : ℚ) := inv.hTq
      rw [hTq]
      show ¬ (((t0 + 1000 : ℕ) : ℚ) + 1000 * (T : ℚ) ≤
        ((t0 + 1000 + 100 * (k + 1) : ℕ) : ℚ))
      rw [deadline_cast]
      omega
    obtain ⟨e1, e2, e3, e4, e5, e6, e7, e8, e9, e10, e11, e12, e13, e14⟩ :=
      countdownTickBody_no_delete _ (t0 + 1000) hcs2 hno
    refine ⟨?_, ?_, ?_, ?_, ?_, ?_, ?_, ?_, ?_, ?_, ?_⟩
    · rw [e1]
      have harith : t0 + 1000 + 100 * (k + 1) + 100 =
          t0 + 1000 + 100 * (k + 1 + 1) := by omega
      rw [harith]
    · rw [e3]; exact inv.hnext
    · rw [e5]; exact inv.hact
    · rw [e7]; exact inv.hstart
    · rw [e8]; exact inv.hcs
    · rw [e9]; exact inv.hTq
    · rw [e10]; exact inv.hg
    · rw [e11]; exact inv.hc
    · rw [e12]; exact inv.he
    · rw [e13]; exact inv.hbuf
    · omega
  · have hcs2 : ({ w with
        now := t0 + 1000 + 100 * (k + 1),
        timers := [⟨0, Cb.elapsedTick, t0 + 1000 * (m + 1), some 1000⟩,
          ⟨2, Cb.countdownTick, t0 + 1000 + 100 * (k + 1) + 100, some 100⟩] } :
        World).st.countdownStart = some (t0 + 1000) := inv.hcs
    have hno : ¬ (((t0 + 1000 : ℕ) : ℚ) + 1000 * ({ w with
        now := t0 + 1000 + 100 * (k + 1),
        timers := [⟨0, Cb.elapsedTick, t0 + 1000 * (m + 1), some 1000⟩,
          ⟨2, Cb.countdownTick, t0 + 1000 + 100 * (k + 1) + 100, some 100⟩] } :
        World).st.timeoutSeconds ≤ (({ w with
        now := t0 + 1000 + 100 * (k + 1),
        timers := [⟨0, Cb.elapsedTick, t0 + 1000 * (m + 1), some 1000⟩,
          ⟨2, Cb.countdownTick, t0 + 1000 + 100 * (k + 1) + 100, some 100⟩] } :
        World).now : ℚ)) := by
      have hTq : ({ w with
          now := t0 + 1000 + 100 * (k + 1),
          timers := [⟨0, Cb.elapsedTick, t0 + 1000 * (m + 1), some 1000⟩,
            ⟨2, Cb.countdownTick, t0 + 1000 + 100 * (k + 1) + 100, some 100⟩] } :
          World).st.timeoutSeconds = (T : ℚ) := inv.hTq
      rw [hTq]
      show ¬ (((t0 + 1000 : ℕ) : ℚ) + 1000 * (T : ℚ) ≤
        ((t0 + 1000 + 100 * (k + 1) : ℕ) : ℚ))
      rw [deadline_cast]
      omega
    obtain ⟨e1, e2, e3, e4, e5, e6, e7, e8, e9, e10, e11, e12, e13, e14⟩ :=
      countdownTickBody_no_delete _ (t0 + 1000) hcs2 hno
    exact ⟨_, _, e4⟩

/-- One scheduler step from a loop state at the deadline sample: the
sample is recorded and the text destroyed. -/
theorem loopinv_deadline_step (t0 : Nat) (T k m : ℕ) (w : World)
    (inv : LoopInv t0 T k m w)
    (hlt : t0 + 1000 + 100 * (k + 1) < t0 + 1000 * (m + 1))
    (hke : k + 1 = 10 * T) :
    ∃ w2, stepW w [] = some (w2, []) ∧
      w2.timers = [⟨3, Cb.deletedTimeout, t0 + 1000 + 1000 * T + 500, none⟩] ∧
      ∃ p r, w2.events = w.events ++
        [Ev.decayTick (t0 + 1000 + 1000 * T) p r,
         Ev.textDestroyed (t0 + 1000 + 1000 * T) [] 0 false] := by
  have hmin : minTimer? w.timers =
      some ⟨2, Cb.countdownTick, t0 + 1000 + 100 * (k + 1), some 100⟩ := by
    rw [inv.htimers, minTimer_pair]
    simp [hlt]
  have hstep : stepW w [] =
      some (fireTimer w ⟨2, Cb.countdownTick, t0 + 1000 + 100 * (k + 1), some 100⟩,
        []) := by
    simp [stepW, hmin]
  have hfire : fireTimer w ⟨2, Cb.countdownTick, t0 + 1000 + 100 * (k + 1), some 100⟩ =
      countdownTickBody { w with
        now := t0 + 1000 + 100 * (k + 1),
        timers := [⟨0, Cb.elapsedTick, t0 + 1000 * (m + 1), some 1000⟩,
          ⟨2, Cb.countdownTick, t0 + 1000 + 100 * (k + 1) + 100, some 100⟩] } := by
    simp [fireTimer, inv.htimers]
  have hcs2 : ({ w with
      now := t0 + 1000 + 100 * (k + 1),
      timers := [⟨0, Cb.elapsedTick, t0 + 1000 * (m + 1), some 1000⟩,
        ⟨2, Cb.countdownTick, t0 + 1000 + 100 * (k + 1) + 100, some 100⟩] } :
      World).st.countdownStart = some (t0 + 1000) := inv.hcs
  have hyes : (((t0 + 1000 : ℕ) : ℚ) + 1000 * ({ w with
      now := t0 + 1000 + 100 * (k + 1),
      timers := [⟨0, Cb.elapsedTick, t0 + 1000 * (m + 1), some 1000⟩,
        ⟨2, Cb.countdownTick, t0 + 1000 + 100 * (k + 1) + 100, some 100⟩] } :
      World).st.timeoutSeconds ≤ (({ w with
      now := t0 + 1000 + 100 * (k + 1),
      timers := [⟨0, Cb.elapsedTick, t0 + 1000 * (m + 1), some 1000⟩,
        ⟨2, Cb.countdownTick, t0 + 1000 + 100 * (k + 1) + 100, some 100⟩] } :
      World).now : ℚ)) := by
    have hTq : ({ w with
        now := t0 + 1000 + 100 * (k + 1),
        timers := [⟨0, Cb.elapsedTick, t0 + 1000 * (m + 1), some 1000⟩,
          ⟨2, Cb.countdownTick, t0 + 1000 + 100 * (k + 1) + 100, some 100⟩] } :
        World).st.timeoutSeconds = (T : ℚ) := inv.hTq
    rw [hTq]
    show ((t0 + 1000 : ℕ) : ℚ) + 1000 * (T : ℚ) ≤
      ((t0 + 1000 + 100 * (k + 1) : ℕ) : ℚ)
    rw [deadline_cast]
    omega
  obtain ⟨hev, htm, hnow⟩ := countdownTickBody_deletes _ (t0 + 1000) hcs2 hyes
  refine ⟨_, by rw [hstep, hfire], ?_, ?_⟩
  · rw [htm]
    have hg2 := inv.hg
    have hc2 := inv.hc
    have he2 := inv.he
    have hn2 := inv.hnext
    simp only [hg2, hc2, he2, hn2]
    have harith : t0 + 1000 + 100 * (k + 1) + 500 = t0 + 1000 + 1000 * T + 500 := by
      omega
    rw [← harith]
    simp
  · refine ⟨sampleProgress (T : ℚ) ((t0 + 1000 : ℕ) : ℚ)
        ((t0 + 1000 + 100 * (k + 1) : ℕ) : ℚ),
      sampleRemaining (T : ℚ) ((t0 + 1000 : ℕ) : ℚ)
        ((t0 + 1000 + 100 * (k + 1) : ℕ) : ℚ), ?_⟩
    have harith : t0 + 1000 + 100 * (k + 1) = t0 + 1000 + 1000 * T := by omega
    rw [← harith, hev]
    have h0 : trimC ([] : List Char) = [] := rfl
    have h1 : countWords ([] : List Char) = 0 := rfl
    simp [inv.hTq, inv.hbuf, h0, h1]

/-- One scheduler step from a loop state in which the elapsed-time
interval fires: only the elapsed display changes. -/
theorem loopinv_elapsed_step (t0 : Nat) (T k m : ℕ) (w : World)
    (inv : LoopInv t0 T k m w)
    (hge : ¬ (t0 + 1000 + 100 * (k + 1) < t0 + 1000 * (m + 1))) :
    ∃ w2, stepW w [] = some (w2, []) ∧ LoopInv t0 T k (m + 1) w2 ∧
      w2.events = w.events := by
  have hmin : minTimer? w.timers =
      some ⟨0, Cb.elapsedTick, t0 + 1000 * (m + 1), some 1000⟩ := by
    rw [inv.htimers, minTimer_pair]
    simp [hge]
  have hstep : stepW w [] =
      some (fireTimer w ⟨0, Cb.elapsedTick, t0 + 1000 * (m + 1), some 1000⟩, []) := by
    simp [stepW, hmin]
  have hfire : fireTimer w ⟨0, Cb.elapsedTick, t0 + 1000 * (m + 1), some 1000⟩ =
      elapsedTickBody { w with
        now := t0 + 1000 * (m + 1),
        timers := [⟨0, Cb.elapsedTick, t0 + 1000 * (m + 1) + 1000, some 1000⟩,
          ⟨2, Cb.countdownTick, t0 + 1000 + 100 * (k + 1), some 100⟩] } := by
    simp [fireTimer, inv.htimers]
  obtain ⟨q, heq⟩ := elapsedTickBody_eq { w with
    now := t0 + 1000 * (m + 1),
    timers := [⟨0, Cb.elapsedTick, t0 + 1000 * (m + 1) + 1000, some 1000⟩,
      ⟨2, Cb.countdownTick, t0 + 1000 + 100 * (k + 1), some 100⟩] }
  refine ⟨_, by rw [hstep, hfire, heq], ?_, ?_⟩
  · refine ⟨?_, inv.hnext, inv.hact, inv.hstart, inv.hcs, inv.hTq, inv.hg, inv.hc,
      inv.he, inv.hbuf, inv.hk⟩
    show [⟨0, Cb.elapsedTick, t0 + 1000 * (m + 1) + 1000, some 1000⟩,
        ⟨2, Cb.countdownTick, t0 + 1000 + 100 * (k + 1), some 100⟩] =
      ([⟨0, Cb.elapsedTick, t0 + 1000 * (m + 1 + 1), some 1000⟩,
        ⟨2, Cb.countdownTick, t0 + 1000 + 100 * (k + 1), some 100⟩] : List Timer)
    have harith : t0 + 1000 * (m + 1) + 1000 = t0 + 1000 * (m + 1 + 1) := by omega
    rw [harith]
  · rfl

/-- From any state of the sampling loop, with enough fuel, the run emits
only DecayTick samples and then exactly one TextDestroyed at the deadline
(1 + T seconds after session start), after which nothing at all is
emitted. -/
theorem loop_runs_to_deletion (t0 : Nat) (T : ℕ) :
    ∀ fuel k m (w : World), LoopInv t0 T k m w →
      (10 * T - k) + (T + 2 - m) + 2 ≤ fuel →
      ∃ mid, (runSim fuel w []).events =
          w.events ++ mid ++ [Ev.textDestroyed (t0 + 1000 + 1000 * T) [] 0 false] ∧
        ∀ e ∈ mid, ∃ t p r, e = Ev.decayTick t p r := by
  intro fuel
  induction fuel with
  | zero => intro k m w inv hf; omega
  | succ f ih =>
    intro k m w inv hf
    by_cases hlt : t0 + 1000 + 100 * (k + 1) < t0 + 1000 * (m + 1)
    · rcases Nat.lt_or_ge (k + 1) (10 * T) with hklt | hkge
      · obtain ⟨w2, hstep, inv2, p, r, hev⟩ :=
          loopinv_cd_step t0 T k m w inv hlt hklt
        obtain ⟨mid, hmid, hdk⟩ := ih (k + 1) m w2 inv2 (by omega)
        rw [runSim_step f _ _ _ _ hstep]
        refine ⟨Ev.decayTick (t0 + 1000 + 100 * (k + 1)) p r :: mid, ?_, ?_⟩
        · rw [hmid, hev]
          simp
        · intro e hme
          rcases List.mem_cons.mp hme with rfl | hme
          · exact ⟨_, _, _, rfl⟩
          · exact hdk e hme
      · have hke : k + 1 = 10 * T := by
          have := inv.hk
          omega
        obtain ⟨w2, hstep, htm, p, r, hev⟩ :=
          loopinv_deadline_step t0 T k m w inv hlt hke
        rw [runSim_step f _ _ _ _ hstep]
        rw [runSim_after_deletion f w2 3 (t0 + 1000 + 1000 * T + 500) htm]
        refine ⟨[Ev.decayTick (t0 + 1000 + 1000 * T) p r], ?_, ?_⟩
        · rw [hev]
          simp
        · intro e hme
          rcases List.mem_cons.mp hme with rfl | hme
          · exact ⟨_, _, _, rfl⟩
          · simp at hme
    · obtain ⟨w2, hstep, inv2, hev⟩ := loopinv_elapsed_step t0 T k m w inv hlt
      have hmT : 1000 * (m + 1) ≤ 1000 + 100 * (k + 1) := by omega
      have hk10 := inv.hk
      obtain ⟨mid, hmid, hdk⟩ := ih k (m + 1) w2 inv2 (by omega)
      rw [runSim_step f _ _ _ _ hstep]
      rw [hmid, hev]
      exact ⟨mid, rfl, hdk⟩

/-- Closed form of beginActiveCountdown. -/
theorem beginActiveCountdown_eq (w : World) :
    beginActiveCountdown w = { w with
      nextId := w.nextId + 1,
      timers := w.timers ++ [⟨w.nextId, Cb.countdownTick, w.now + 100, some 100⟩],
      st := { w.st with
        countdownActive := true, countdownStart := some w.now,
        heartbeatCount := 0, lastBeatTime := w.now,
        progressContainerActive := true, countdownClass := true,
        heartbeatClass := true, countdownTimerId := some w.nextId } } := by
  simp [beginActiveCountdown, setIntervalW, COUNTDOWN_INTERVAL, World.ext_iff,
    St.ext_iff]

/-- Closed form of starting a fresh session on the loaded page. -/
theorem startSession_init_eq (t0 : Nat) (T : ℚ) :
    startSession none (initWorld t0 T) = { initWorld t0 T with
      nextId := 2,
      timers := [⟨0, Cb.elapsedTick, t0 + 1000, some 1000⟩,
        ⟨1, Cb.grace, t0 + 1000, none⟩],
      st := { (initWorld t0 T).st with
        isActive := true, startTime := some t0, textAreaDisabled := false,
        startButtonVisible := false, saveDisabled := false, resetDisabled := false,
        elapsedTimerId := some 0, graceTimerId := some 1 },
      events := [Ev.sessionStarted t0] } := by
  simp [startSession, startElapsedTimer, setIntervalW, startCountdown, setTimeoutW,
    initWorld, World.ext_iff, St.ext_iff]

/-- Firing the grace one-shot moves a fresh session into the sampling
loop. -/
theorem grace_step_to_loop (t0 : Nat) (T : ℕ) (w : World)
    (htm : w.timers = [⟨0, Cb.elapsedTick, t0 + 1000 + 1000, some 1000⟩,
      ⟨1, Cb.grace, t0 + 1000, none⟩])
    (hnx : w.nextId = 2)
    (hact : w.st.isActive = true)
    (hstart : w.st.startTime = some t0)
    (hTq : w.st.timeoutSeconds = (T : ℚ))
    (hbuf : w.st.bufferText = [])
    (he : w.st.elapsedTimerId = some 0)
    (hT : 1 ≤ T) :
    ∃ w2, stepW w [] = some (w2, []) ∧ LoopInv t0 T 0 1 w2 ∧
      w2.events = w.events := by
  have hmin : minTimer? w.timers = some ⟨1, Cb.grace, t0 + 1000, none⟩ := by
    rw [htm, minTimer_pair]
    simp
  have hstep : stepW w [] = some (fireTimer w ⟨1, Cb.grace, t0 + 1000, none⟩, []) := by
    simp [stepW, hmin]
  have hfire : fireTimer w ⟨1, Cb.grace, t0 + 1000, none⟩ =
      beginActiveCountdown { w with
        now := t0 + 1000,
        timers := [⟨0, Cb.elapsedTick, t0 + 1000 + 1000, some 1000⟩],
        st := { w.st with graceTimerId := none } } := by
    simp [fireTimer, htm]
  rw [beginActiveCountdown_eq] at hfire
  refine ⟨_, by rw [hstep, hfire], ?_, ?_⟩
  · refine ⟨?_, ?_, hact, hstart, ?_, hTq, ?_, ?_, he, hbuf, by omega⟩
    · have h1 : t0 + 1000 * (1 + 1) = t0 + 1000 + 1000 := by omega
      have h2 : t0 + 1000 + 100 * (0 + 1) = t0 + 1000 + 100 := by omega
      rw [h1, h2]
      simp [hnx]
    · show w.nextId + 1 = 3
      omega
    · rfl
    · rfl
    · simp [hnx]
  · rfl

/-- C3 second half, general form: a session started at any time t0 with
any configured integer timeout T in range, receiving no activity at all,
emits some DecayTick samples, then exactly one TextDestroyed at time
t0 + (1 + T) seconds, and nothing at all after it. -/
theorem session_no_activity_destroys_once (t0 : Nat) (T : ℕ) (fuel : Nat)
    (hT : 1 ≤ T) (hf : 11 * T + 6 ≤ fuel) :
    ∃ mid, (runSim fuel (startSession none (initWorld t0 (T : ℚ))) []).events =
        Ev.sessionStarted t0 ::
          (mid ++ [Ev.textDestroyed (t0 + 1000 + 1000 * T) [] 0 false]) ∧
      ∀ e ∈ mid, ∃ t p r, e = Ev.decayTick t p r := by
  obtain ⟨f, rfl⟩ : ∃ f, fuel = f + 2 := ⟨fuel - 2, by omega⟩
  rw [startSession_init_eq]
  -- first step: the elapsed interval fires (registration order wins the tie)
  have hmin1 : minTimer? [⟨0, Cb.elapsedTick, t0 + 1000, some 1000⟩,
      ⟨1, Cb.grace, t0 + 1000, none⟩] =
      some ⟨0, Cb.elapsedTick, t0 + 1000, some 1000⟩ := by
    rw [minTimer_pair]
    simp
  have hstep1 : stepW ({ initWorld t0 (T : ℚ) with
      nextId := 2,
      timers := [⟨0, Cb.elapsedTick, t0 + 1000, some 1000⟩,
        ⟨1, Cb.grace, t0 + 1000, none⟩],
      st := { (initWorld t0 (T : ℚ)).st with
        isActive := true, startTime := some t0, textAreaDisabled := false,
        startButtonVisible := false, saveDisabled := false, resetDisabled := false,
        elapsedTimerId := some 0, graceTimerId := some 1 },
      events := [Ev.sessionStarted t0] } : World) [] =
      some (fireTimer { initWorld t0 (T : ℚ) with
        nextId := 2,
        timers := [⟨0, Cb.elapsedTick, t0 + 1000, some 1000⟩,
          ⟨1, Cb.grace, t0 + 1000, none⟩],
        st := { (initWorld t0 (T : ℚ)).st with
          isActive := true, startTime := some t0, textAreaDisabled := false,
          startButtonVisible := false, saveDisabled := false, resetDisabled := false,
          elapsedTimerId := some 0, graceTimerId := some 1 },
        events := [Ev.sessionStarted t0] }
        ⟨0, Cb.elapsedTick, t0 + 1000, some 1000⟩, []) := by
    simp [stepW, hmin1]
  rw [runSim_step (f + 1) _ _ _ _ hstep1]
  have hfire1 : fireTimer ({ initWorld t0 (T : ℚ) with
      nextId := 2,
      timers := [⟨0, Cb.elapsedTick, t0 + 1000, some 1000⟩,
        ⟨1, Cb.grace, t0 + 1000, none⟩],
      st := { (initWorld t0 (T : ℚ)).st with
        isActive := true, startTime := some t0, textAreaDisabled := false,
        startButtonVisible := false, saveDisabled := false, resetDisabled := false,
        elapsedTimerId := some 0, graceTimerId := some 1 },
      events := [Ev.sessionStarted t0] } : World)
      ⟨0, Cb.elapsedTick, t0 + 1000, some 1000⟩ =
      elapsedTickBody { initWorld t0 (T : ℚ) with
        now := t0 + 1000,
        nextId := 2,
        timers := [⟨0, Cb.elapsedTick, t0 + 1000 + 1000, some 1000⟩,
          ⟨1, Cb.grace, t0 + 1000, none⟩],
        st := { (initWorld t0 (T : ℚ)).st with
          isActive := true, startTime := some t0, textAreaDisabled := false,
          startButtonVisible := false, saveDisabled := false, resetDisabled := false,
          elapsedTimerId := some 0, graceTimerId := some 1 },
        events := [Ev.sessionStarted t0] } := by
    simp [fireTimer, initWorld]
  rw [hfire1]
  obtain ⟨q, heq1⟩ := elapsedTickBody_eq { initWorld t0 (T : ℚ) with
    now := t0 + 1000,
    nextId := 2,
    timers := [⟨0, Cb.elapsedTick, t0 + 1000 + 1000, some 1000⟩,
      ⟨1, Cb.grace, t0 + 1000, none⟩],
    st := { (initWorld t0 (T : ℚ)).st with
      isActive := true, startTime := some t0, textAreaDisabled := false,
      startButtonVisible := false, saveDisabled := false, resetDisabled := false,
      elapsedTimerId := some 0, graceTimerId := some 1 },
    events := [Ev.sessionStarted t0] }
  rw [heq1]
  -- second step: the grace one-shot fires and the countdown begins
  show ∃ mid, (runSim (f + 1) ({ initWorld t0 (T : ℚ) with
      now := t0 + 1000,
      nextId := 2,
      timers := [⟨0, Cb.elapsedTick, t0 + 1000 + 1000, some 1000⟩,
        ⟨1, Cb.grace, t0 + 1000, none⟩],
      st := { (initWorld t0 (T : ℚ)).st with
        isActive := true, startTime := some t0, textAreaDisabled := false,
        startButtonVisible := false, saveDisabled := false, resetDisabled := false,
        elapsedTimerId := some 0, graceTimerId := some 1, elapsedTimeText := q },
      events := [Ev.sessionStarted t0] } : World) []).events =
      Ev.sessionStarted t0 ::
        (mid ++ [Ev.textDestroyed (t0 + 1000 + 1000 * T) [] 0 false]) ∧
    ∀ e ∈ mid, ∃ t p r, e = Ev.decayTick t p r
  obtain ⟨w3, hstep2, inv3, hev3⟩ :=
    grace_step_to_loop t0 T ({ initWorld t0 (T : ℚ) with
      now := t0 + 1000,
      nextId := 2,
      timers := [⟨0, Cb.elapsedTick, t0 + 1000 + 1000, some 1000⟩,
        ⟨1, Cb.grace, t0 + 1000, none⟩],
      st := { (initWorld t0 (T : ℚ)).st with
        isActive := true, startTime := some t0, textAreaDisabled := false,
        startButtonVisible := false, saveDisabled := false, resetDisabled := false,
        elapsedTimerId := some 0, graceTimerId := some 1, elapsedTimeText := q },
      events := [Ev.sessionStarted t0] } : World) rfl rfl rfl rfl rfl rfl rfl hT
  rw [runSim_step f _ _ _ _ hstep2]
  obtain ⟨mid, hmid, hdk⟩ := loop_runs_to_deletion t0 T f 0 1 w3 inv3 (by omega)
  refine ⟨mid, ?_, hdk⟩
  rw [hmid, hev3]
  rfl

/-- Every TextDestroyed in the log is strictly later than tn. -/
def tdLate (tn : Nat) (evts : List Ev) : Prop :=
  ∀ t txt wc ar, Ev.textDestroyed t txt wc ar ∈ evts → tn < t

/-- Every event in the log that is a DecayTick or a TextDestroyed is
strictly later than tn. -/
def visLate (tn : Nat) (evts : List Ev) : Prop :=
  (∀ t p r, Ev.decayTick t p r ∈ evts → tn < t) ∧ tdLate tn evts

/-- A pending stimulus list consisting only of keystrokes, strictly
ascending, with consecutive gaps below gap milliseconds, whose last time
is tn (every time is at most tn). -/
def extsOK (gap tn : Nat) : List (Nat × ExtEv) → Prop
  | [] => True
  | (t, e) :: rest => (∃ txt, e = ExtEv.input txt) ∧ t ≤ tn ∧
      (rest = [] → t = tn) ∧
      (∀ p rest2, rest = p :: rest2 → t < p.1 ∧ p.1 < t + gap) ∧
      extsOK gap tn rest

/-- The time of the last element, or the base time for an empty list. -/
def lastTime (t0 : Nat) (ts : List Nat) : Nat :=
  ts.foldl (fun _ b => b) t0

/-- Keystroke stimuli from a list of (time, new buffer text) pairs. -/
def inputsToExts (inputs : List (Nat × List Char)) : List (Nat × ExtEv) :=
  inputs.map (fun p => (p.1, ExtEv.input p.2))

theorem lastTime_nil (t0 : Nat) : lastTime t0 [] = t0 := rfl

theorem lastTime_cons (t0 t : Nat) (ts : List Nat) :
    lastTime t0 (t :: ts) = lastTime t ts := rfl

/-! Generic one-step computations for two-timer session shapes. -/

/-- When the next external stimulus precedes both pending timers, it is
processed first. -/
theorem stepW_ext_fires_pair (w : World) (a b : Timer) (t : Nat) (ev : ExtEv)
    (rest : List (Nat × ExtEv))
    (htm : w.timers = [a, b])
    (hlt1 : t < a.due) (hlt2 : t < b.due) :
    stepW w ((t, ev) :: rest) = some (handleExt ev { w with now := t }, rest) := by
  obtain ⟨tm, hmin, hlt⟩ : ∃ tm, minTimer? w.timers = some tm ∧ t < tm.due := by
    rw [htm, minTimer_pair]
    refine ⟨_, rfl, ?_⟩
    split
    · exact hlt2
    · exact hlt1
  simp only [stepW, hmin]
  rw [if_neg (by omega)]

/-- The elapsed interval fires when it is due first (it wins ties by
registration order) and no earlier stimulus is pending. -/
theorem stepW_elapsed_fires (w : World) (x : Timer) (eDue : Nat)
    (exts : List (Nat × ExtEv))
    (htm : w.timers = [⟨0, Cb.elapsedTick, eDue, some 1000⟩, x])
    (hxid : 1 ≤ x.id) (hle : eDue ≤ x.due)
    (hext : ∀ p rest, exts = p :: rest → eDue ≤ p.1) :
    ∃ q : ℚ, stepW w exts = some ({ w with
      now := eDue,
      timers := [⟨0, Cb.elapsedTick, eDue + 1000, some 1000⟩, x],
      st := { w.st with elapsedTimeText := q } }, exts) := by
  have hmin : minTimer? w.timers = some ⟨0, Cb.elapsedTick, eDue, some 1000⟩ := by
    rw [htm, minTimer_pair]
    rw [if_neg (by simp; omega)]
  have hfire : fireTimer w ⟨0, Cb.elapsedTick, eDue, some 1000⟩ =
      elapsedTickBody { w with
        now := eDue,
        timers := [⟨0, Cb.elapsedTick, eDue + 1000, some 1000⟩, x] } := by
    have hx0 : ¬ (x.id = 0) := by omega
    simp [fireTimer, htm, hx0]
  obtain ⟨q, heq⟩ := elapsedTickBody_eq { w with
    now := eDue,
    timers := [⟨0, Cb.elapsedTick, eDue + 1000, some 1000⟩, x] }
  refine ⟨q, ?_⟩
  cases exts with
  | nil =>
    simp only [stepW, hmin]
    rw [hfire, heq]
  | cons p rest =>
    simp only [stepW, hmin]
    rw [if_pos (hext p rest rfl)]
    rw [hfire, heq]

/-- The grace one-shot fires when it is strictly earliest. -/
theorem stepW_grace_fires (w : World) (gid gDue eDue : Nat)
    (exts : List (Nat × ExtEv))
    (htm : w.timers = [⟨0, Cb.elapsedTick, eDue, some 1000⟩,
      ⟨gid, Cb.grace, gDue, none⟩])
    (hgid : 1 ≤ gid)
    (hlt : gDue < eDue)
    (hext : ∀ p rest, exts = p :: rest → gDue ≤ p.1) :
    stepW w exts = some (beginActiveCountdown { w with
      now := gDue,
      timers := [⟨0, Cb.elapsedTick, eDue, some 1000⟩],
      st := { w.st with graceTimerId := none } }, exts) := by
  have hmin : minTimer? w.timers = some ⟨gid, Cb.grace, gDue, none⟩ := by
    rw [htm, minTimer_pair]
    rw [if_pos (Or.inl hlt)]
  have hfire : fireTimer w ⟨gid, Cb.grace, gDue, none⟩ =
      beginActiveCountdown { w with
        now := gDue,
        timers := [⟨0, Cb.elapsedTick, eDue, some 1000⟩],
        st := { w.st with graceTimerId := none } } := by
    have hx0 : ¬ ((0 : Nat) = gid) := by omega
    simp [fireTimer, htm, hx0]
  cases exts with
  | nil =>
    simp only [stepW, hmin]
    rw [hfire]
  | cons p rest =>
    simp only [stepW, hmin]
    rw [if_pos (hext p rest rfl)]
    rw [hfire]

/-- The countdown interval fires when it is strictly earliest. -/
theorem stepW_cd_fires (w : World) (cid cdDue eDue : Nat)
    (exts : List (Nat × ExtEv))
    (htm : w.timers = [⟨0, Cb.elapsedTick, eDue, some 1000⟩,
      ⟨cid, Cb.countdownTick, cdDue, some 100⟩])
    (hcid : 1 ≤ cid)
    (hlt : cdDue < eDue)
    (hext : ∀ p rest, exts = p :: rest → cdDue ≤ p.1) :
    stepW w exts = some (countdownTickBody { w with
      now := cdDue,
      timers := [⟨0, Cb.elapsedTick, eDue, some 1000⟩,
        ⟨cid, Cb.countdownTick, cdDue + 100, some 100⟩] }, exts) := by
  have hmin : minTimer? w.timers = some ⟨cid, Cb.countdownTick, cdDue, some 100⟩ := by
    rw [htm, minTimer_pair]
    rw [if_pos (Or.inl hlt)]
  have hfire : fireTimer w ⟨cid, Cb.countdownTick, cdDue, some 100⟩ =
      countdownTickBody { w with
        now := cdDue,
        timers := [⟨0, Cb.elapsedTick, eDue, some 1000⟩,
          ⟨cid, Cb.countdownTick, cdDue + 100, some 100⟩] } := by
    have hx0 : ¬ ((0 : Nat) = cid) := by omega
    simp [fireTimer, htm, hx0]
  cases exts with
  | nil =>
    simp only [stepW, hmin]
    rw [hfire]
  | cons p rest =>
    simp only [stepW, hmin]
    rw [if_pos (hext p rest rfl)]
    rw [hfire]

theorem tdLate_append (tn : Nat) (l1 l2 : List Ev) :
    tdLate tn (l1 ++ l2) ↔ tdLate tn l1 ∧ tdLate tn l2 := by
  unfold tdLate
  constructor
  · intro h
    exact ⟨fun t txt wc ar hm => h t txt wc ar (List.mem_append.mpr (Or.inl hm)),
      fun t txt wc ar hm => h t txt wc ar (List.mem_append.mpr (Or.inr hm))⟩
  · rintro ⟨h1, h2⟩ t txt wc ar hm
    rcases List.mem_append.mp hm with hm | hm
    · exact h1 t txt wc ar hm
    · exact h2 t txt wc ar hm

theorem tdLate_tick (tn t : Nat) (p r : ℚ) : tdLate tn [Ev.decayTick t p r] := by
  intro t2 txt wc ar hm
  simp at hm

theorem tdLate_td (tn t : Nat) (txt : List Char) (wc : Nat) (ar : Bool)
    (h : tn < t) : tdLate tn [Ev.textDestroyed t txt wc ar] := by
  intro t2 txt2 wc2 ar2 hm
  simp at hm
  obtain ⟨rfl, -, -, -⟩ := hm
  exact h

/-- A keystroke during a session with pending elapsed timer (handle 0)
and one tracked grace or countdown timer x: the handler removes x,
updates the buffer and schedules a fresh grace one-shot. -/
theorem handleInput_session_shape (w : World) (txt : List Char) (x : Timer)
    (eDue : Nat)
    (htm : w.timers = [⟨0, Cb.elapsedTick, eDue, some 1000⟩, x])
    (hx : w.st.graceTimerId = some x.id ∧ w.st.countdownTimerId = none ∨
          w.st.graceTimerId = none ∧ w.st.countdownTimerId = some x.id)
    (hxid : 1 ≤ x.id) :
    handleInput txt w = { w with
      nextId := w.nextId + 1,
      timers := [⟨0, Cb.elapsedTick, eDue, some 1000⟩,
        ⟨w.nextId, Cb.grace, w.now + 1000, none⟩],
      st := { w.st with
        bufferText := txt, wordCountText := countWords txt,
        graceTimerId := some w.nextId, countdownTimerId := none,
        countdownActive := false, countdownStart := none, heartbeatCount := 0,
        progressWidth := 1, progressContainerActive := false,
        countdownClass := false, heartbeatClass := false,
        pauseTimerText := w.st.timeoutSeconds } } := by
  have h0 : ¬ ((0 : Nat) = x.id) := by omega
  rw [handleInput_eq, startCountdown_eq]
  rcases hx with ⟨hg, hc⟩ | ⟨hg, hc⟩ <;>
    simp [htm, hg, hc, h0, World.ext_iff, St.ext_iff]

/-- Safety invariant for a running session fed only by keystrokes whose
last arrival is at tn: the world is in the grace phase, the countdown
phase, or already destroyed, and every TextDestroyed in the log is after
tn. -/
inductive Inv3a (t0 : Nat) (T : ℕ) (tn : Nat) : World → List (Nat × ExtEv) → Prop
  | grace (w : World) (exts : List (Nat × ExtEv)) (gid gDue eDue : Nat)
      (htm : w.timers = [⟨0, Cb.elapsedTick, eDue, some 1000⟩,
        ⟨gid, Cb.grace, gDue, none⟩])
      (hnx : w.nextId = gid + 1)
      (hgid : 1 ≤ gid)
      (hg : w.st.graceTimerId = some gid)
      (hc : w.st.countdownTimerId = none)
      (he : w.st.elapsedTimerId = some 0)
      (hTq : w.st.timeoutSeconds = (T : ℚ))
      (hdis : w.st.textAreaDisabled = false)
      (hemp : exts = [] → tn < gDue)
      (hhead : ∀ p rest, exts = p :: rest → p.1 < gDue + 1000 * T)
      (hok : extsOK (1000 * T) tn exts)
      (hlate : tdLate tn w.events) :
      Inv3a t0 T tn w exts
  | countdown (w : World) (exts : List (Nat × ExtEv)) (cid cs j eDue : Nat)
      (htm : w.timers = [⟨0, Cb.elapsedTick, eDue, some 1000⟩,
        ⟨cid, Cb.countdownTick, cs + 100 * j, some 100⟩])
      (hnx : w.nextId = cid + 1)
      (hcid : 1 ≤ cid)
      (hj : 1 ≤ j)
      (hjb : 100 * j ≤ 1000 * T)
      (hg : w.st.graceTimerId = none)
      (hc : w.st.countdownTimerId = some cid)
      (he : w.st.elapsedTimerId = some 0)
      (hcs : w.st.countdownStart = some cs)
      (hTq : w.st.timeoutSeconds = (T : ℚ))
      (hdis : w.st.textAreaDisabled = false)
      (hemp : exts = [] → tn < cs)
      (hhead : ∀ p rest, exts = p :: rest → p.1 < cs + 1000 * T)
      (hok : extsOK (1000 * T) tn exts)
      (hlate : tdLate tn w.events) :
      Inv3a t0 T tn w exts
  | done (w : World)
      (hdone : w.timers = [] ∨ ∃ i d, w.timers = [⟨i, Cb.deletedTimeout, d, none⟩])
      (hlate : tdLate tn w.events) :
      Inv3a t0 T tn w []

theorem Inv3a.lateTD {t0 T tn : Nat} {w : World} {exts : List (Nat × ExtEv)}
    (inv : Inv3a t0 T tn w exts) : tdLate tn w.events := by
  cases inv with
  | grace exts gid gDue eDue htm hnx hgid hg hc he hTq hdis hemp hhead hok hlate =>
      exact hlate
  | countdown exts cid cs j eDue htm hnx hcid hj hjb hg hc he hcs hTq hdis hemp hhead hok hlate =>
      exact hlate
  | done hdone hlate => exact hlate

/-- One scheduler step preserves the session safety invariant. -/
theorem inv3a_step (t0 T tn : Nat) (hT : 1 ≤ T) (w : World)
    (exts : List (Nat × ExtEv)) (inv : Inv3a t0 T tn w exts) :
    stepW w exts = none ∨
      ∃ w2 exts2, stepW w exts = some (w2, exts2) ∧ Inv3a t0 T tn w2 exts2 := by
  cases inv with
  | grace exts gid gDue eDue htm hnx hgid hg hc he hTq hdis hemp hhead hok hlate =>
    right
    rcases Nat.lt_or_ge gDue eDue with hge | hge
    · -- the grace one-shot is the strictly earliest timer
      cases exts with
      | nil =>
        refine ⟨_, [],
          stepW_grace_fires w gid gDue eDue [] htm hgid hge (by simp), ?_⟩
        rw [beginActiveCountdown_eq]
        refine Inv3a.countdown _ [] (gid + 1) gDue 1 eDue ?_ ?_ (by omega) le_rfl
          (by omega) ?_ ?_ ?_ ?_ ?_ ?_ (fun _ => hemp rfl) (by simp)
          trivial hlate
        · simp [hnx]
        · simp [hnx]
        · rfl
        · simp [hnx]
        · exact he
        · rfl
        · exact hTq
        · exact hdis
      | cons p rest =>
        obtain ⟨t, ev⟩ := p
        obtain ⟨⟨txt, hev⟩, htle, hlast, hgap, hokr⟩ := hok
        rcases Nat.lt_or_ge t gDue with hplt | hpge
        · -- the keystroke preempts both timers
          have hstep := stepW_ext_fires_pair w _ _ t ev rest htm
            (by simpa using by omega) (by simpa using hplt)
          have hhandle : handleExt ev { w with now := t } =
              handleInput txt { w with now := t } := by
            rw [hev]
            simp [handleExt, hdis]
          have hshape := handleInput_session_shape { w with now := t } txt
            ⟨gid, Cb.grace, gDue, none⟩ eDue htm (Or.inl ⟨hg, hc⟩) hgid
          refine ⟨_, rest, hstep, ?_⟩
          rw [hhandle, hshape]
          refine Inv3a.grace _ rest (gid + 1) (t + 1000) eDue ?_ ?_ (by omega)
            ?_ ?_ he hTq hdis ?_ ?_ hokr hlate
          · simp [hnx]
          · simp [hnx]
          · simp [hnx]
          · rfl
          · intro hr
            have := hlast hr
            omega
          · intro p2 rest2 hr
            have := (hgap p2 rest2 hr).2
            omega
        · -- the grace one-shot fires before the keystroke
          refine ⟨_, (t, ev) :: rest,
            stepW_grace_fires w gid gDue eDue _ htm hgid hge
              (by
                intro p2 rest2 h
                rw [List.cons.injEq] at h
                rw [← h.1]
                exact hpge), ?_⟩
          rw [beginActiveCountdown_eq]
          refine Inv3a.countdown _ _ (gid + 1) gDue 1 eDue ?_ ?_ (by omega) le_rfl
            (by omega) ?_ ?_ ?_ ?_ ?_ ?_ (by simp) ?_
            ⟨⟨txt, hev⟩, htle, hlast, hgap, hokr⟩ hlate
          · simp [hnx]
          · simp [hnx]
          · rfl
          · simp [hnx]
          · exact he
          · rfl
          · exact hTq
          · exact hdis
          · intro p2 rest2 h
            rw [List.cons.injEq] at h
            rw [← h.1]
            have := hhead (t, ev) rest rfl
            simpa using this
    · -- the elapsed interval fires first (winning the tie)
      cases exts with
      | nil =>
        obtain ⟨q, hstep⟩ := stepW_elapsed_fires w ⟨gid, Cb.grace, gDue, none⟩
          eDue [] htm hgid (by simpa using hge) (by simp)
        refine ⟨_, [], hstep, ?_⟩
        refine Inv3a.grace _ [] gid gDue (eDue + 1000) rfl hnx hgid hg hc he hTq
          hdis hemp hhead trivial hlate
      | cons p rest =>
        obtain ⟨t, ev⟩ := p
        obtain ⟨⟨txt, hev⟩, htle, hlast, hgap, hokr⟩ := hok
        rcases Nat.lt_or_ge t eDue with hplt | hpge
        · -- the keystroke preempts (t < eDue ≤ gDue)
          have hstep := stepW_ext_fires_pair w _ _ t ev rest htm
            (by simpa using hplt) (by simpa using by omega)
          have hhandle : handleExt ev { w with now := t } =
              handleInput txt { w with now := t } := by
            rw [hev]
            simp [handleExt, hdis]
          have hshape := handleInput_session_shape { w with now := t } txt
            ⟨gid, Cb.grace, gDue, none⟩ eDue htm (Or.inl ⟨hg, hc⟩) hgid
          refine ⟨_, rest, hstep, ?_⟩
          rw [hhandle, hshape]
          refine Inv3a.grace _ rest (gid + 1) (t + 1000) eDue ?_ ?_ (by omega)
            ?_ ?_ he hTq hdis ?_ ?_ hokr hlate
          · simp [hnx]
          · simp [hnx]
          · simp [hnx]
          · rfl
          · intro hr
            have := hlast hr
            omega
          · intro p2 rest2 hr
            have := (hgap p2 rest2 hr).2
            omega
        · -- the elapsed interval fires
          obtain ⟨q, hstep⟩ := stepW_elapsed_fires w ⟨gid, Cb.grace, gDue, none⟩
            eDue ((t, ev) :: rest) htm hgid (by simpa using hge)
            (by
              intro p2 rest2 h
              rw [List.cons.injEq] at h
              rw [← h.1]
              exact hpge)
          refine ⟨_, _, hstep, ?_⟩
          refine Inv3a.grace _ _ gid gDue (eDue + 1000) rfl hnx hgid hg hc he hTq
            hdis hemp hhead ⟨⟨txt, hev⟩, htle, hlast, hgap, hokr⟩ hlate
  | countdown exts cid cs j eDue htm hnx hcid hj hjb hg hc he hcs hTq hdis hemp hhead hok hlate =>
    right
    rcases Nat.lt_or_ge (cs + 100 * j) eDue with hge | hge
    · -- the countdown interval is the strictly earliest timer
      cases exts with
      | nil =>
        rcases Nat.lt_or_ge (100 * j) (1000 * T) with hjlt | hjge
        · -- a plain sample strictly before the deadline
          have hstep := stepW_cd_fires w cid (cs + 100 * j) eDue [] htm hcid hge
            (by simp)
          have hcs2 : ({ w with
              now := cs + 100 * j,
              timers := [⟨0, Cb.elapsedTick, eDue, some 1000⟩,
                ⟨cid, Cb.countdownTick, cs + 100 * j + 100, some 100⟩] } :
              World).st.countdownStart = some cs := hcs
          have hno : ¬ (((cs : ℕ) : ℚ) + 1000 * ({ w with
              now := cs + 100 * j,
              timers := [⟨0, Cb.elapsedTick, eDue, some 1000⟩,
                ⟨cid, Cb.countdownTick, cs + 100 * j + 100, some 100⟩] } :
              World).st.timeoutSeconds ≤ (({ w with
              now := cs + 100 * j,
              timers := [⟨0, Cb.elapsedTick, eDue, some 1000⟩,
                ⟨cid, Cb.countdownTick, cs + 100 * j + 100, some 100⟩] } :
              World).now : ℚ)) := by
            have hTq2 : ({ w with
              now := cs + 100 * j,
                timers := [⟨0, Cb.elapsedTick, eDue, some 1000⟩,
                  ⟨cid, Cb.countdownTick, cs + 100 * j + 100, some 100⟩] } :
                World).st.timeoutSeconds = (T : ℚ) := hTq
            rw [hTq2]
            show ¬ (((cs : ℕ) : ℚ) + 1000 * (T : ℚ) ≤ ((cs + 100 * j : ℕ) : ℚ))
            rw [deadline_cast]
            omega
          obtain ⟨f1, f2, f3, f4, f5, f6, f7, f8, f9, f10, f11, f12, f13, f14⟩ :=
            countdownTickBody_no_delete _ cs hcs2 hno
          refine ⟨_, [], hstep, ?_⟩
          refine Inv3a.countdown _ [] cid cs (j + 1) eDue ?_ ?_ hcid (by omega)
            (by omega) ?_ ?_ ?_ ?_ ?_ ?_ (fun _ => hemp rfl) (by simp)
            trivial ?_
          · rw [f1]
            have harith : cs + 100 * j + 100 = cs + 100 * (j + 1) := by omega
            rw [harith]
          · rw [f3]; exact hnx
          · rw [f10]; exact hg
          · rw [f11]; exact hc
          · rw [f12]; exact he
          · rw [f8]; exact hcs
          · rw [f9]; exact hTq
          · rw [f14]; exact hdis
          · rw [f4]
            rw [tdLate_append]
            exact ⟨hlate, tdLate_tick tn _ _ _⟩
        · -- the deadline sample: destruction, after the last keystroke
          have hje : 100 * j = 1000 * T := by omega
          have hstep := stepW_cd_fires w cid (cs + 100 * j) eDue [] htm hcid hge
            (by simp)
          have hcs2 : ({ w with
              now := cs + 100 * j,
              timers := [⟨0, Cb.elapsedTick, eDue, some 1000⟩,
                ⟨cid, Cb.countdownTick, cs + 100 * j + 100, some 100⟩] } :
              World).st.countdownStart = some cs := hcs
          have hyes : (((cs : ℕ) : ℚ) + 1000 * ({ w with
              now := cs + 100 * j,
              timers := [⟨0, Cb.elapsedTick, eDue, some 1000⟩,
                ⟨cid, Cb.countdownTick, cs + 100 * j + 100, some 100⟩] } :
              World).st.timeoutSeconds ≤ (({ w with
              now := cs + 100 * j,
              timers := [⟨0, Cb.elapsedTick, eDue, some 1000⟩,
                ⟨cid, Cb.countdownTick, cs + 100 * j + 100, some 100⟩] } :
              World).now : ℚ)) := by
            have hTq2 : ({ w with
              now := cs + 100 * j,
                timers := [⟨0, Cb.elapsedTick, eDue, some 1000⟩,
                  ⟨cid, Cb.countdownTick, cs + 100 * j + 100, some 100⟩] } :
                World).st.timeoutSeconds = (T : ℚ) := hTq
            rw [hTq2]
            show ((cs : ℕ) : ℚ) + 1000 * (T : ℚ) ≤ ((cs + 100 * j : ℕ) : ℚ)
            rw [deadline_cast]
            omega
          obtain ⟨hev2, htm2, hnow2⟩ := countdownTickBody_deletes _ cs hcs2 hyes
          refine ⟨_, [], hstep, ?_⟩
          refine Inv3a.done _ ?_ ?_
          · right
            refine ⟨w.nextId, cs + 100 * j + 500, ?_⟩
            rw [htm2]
            simp [hg, hc, he]
          · rw [hev2]
            rw [tdLate_append]
            refine ⟨hlate, ?_⟩
            intro t2 txt2 wc2 ar2 hm
            simp at hm
            obtain ⟨rfl, -, -, -⟩ := hm.2
            have := hemp rfl
            omega
      | cons p rest =>
        obtain ⟨t, ev⟩ := p
        obtain ⟨⟨txt, hev⟩, htle, hlast, hgap, hokr⟩ := hok
        rcases Nat.lt_or_ge t (cs + 100 * j) with hplt | hpge
        · -- the keystroke preempts both timers
          have hstep := stepW_ext_fires_pair w _ _ t ev rest htm
            (by simpa using by omega) (by simpa using hplt)
          have hhandle : handleExt ev { w with now := t } =
              handleInput txt { w with now := t } := by
            rw [hev]
            simp [handleExt, hdis]
          have hshape := handleInput_session_shape { w with now := t } txt
            ⟨cid, Cb.countdownTick, cs + 100 * j, some 100⟩ eDue htm
            (Or.inr ⟨hg, hc⟩) hcid
          refine ⟨_, rest, hstep, ?_⟩
          rw [hhandle, hshape]
          refine Inv3a.grace _ rest (cid + 1) (t + 1000) eDue ?_ ?_ (by omega)
            ?_ ?_ he hTq hdis ?_ ?_ hokr hlate
          · simp [hnx]
          · simp [hnx]
          · simp [hnx]
          · rfl
          · intro hr
            have := hlast hr
            omega
          · intro p2 rest2 hr
            have := (hgap p2 rest2 hr).2
            omega
        · -- the countdown interval fires before the keystroke; the
          -- deadline cannot have been reached because the keystroke is
          -- still ahead of it
          have hhd := hhead (t, ev) rest rfl
          have hjlt : 100 * j < 1000 * T := by omega
          have hstep := stepW_cd_fires w cid (cs + 100 * j) eDue ((t, ev) :: rest) htm hcid hge
            (by
              intro p2 rest2 h
              rw [List.cons.injEq] at h
              rw [← h.1]
              exact hpge)
          have hcs2 : ({ w with
              now := cs + 100 * j,
              timers := [⟨0, Cb.elapsedTick, eDue, some 1000⟩,
                ⟨cid, Cb.countdownTick, cs + 100 * j + 100, some 100⟩] } :
              World).st.countdownStart = some cs := hcs
          have hno : ¬ (((cs : ℕ) : ℚ) + 1000 * ({ w with
              now := cs + 100 * j,
              timers := [⟨0, Cb.elapsedTick, eDue, some 1000⟩,
                ⟨cid, Cb.countdownTick, cs + 100 * j + 100, some 100⟩] } :
              World).st.timeoutSeconds ≤ (({ w with
              now := cs + 100 * j,
              timers := [⟨0, Cb.elapsedTick, eDue, some 1000⟩,
                ⟨cid, Cb.countdownTick, cs + 100 * j + 100, some 100⟩] } :
              World).now : ℚ)) := by
            have hTq2 : ({ w with
              now := cs + 100 * j,
                timers := [⟨0, Cb.elapsedTick, eDue, some 1000⟩,
                  ⟨cid, Cb.countdownTick, cs + 100 * j + 100, some 100⟩] } :
                World).st.timeoutSeconds = (T : ℚ) := hTq
            rw [hTq2]
            show ¬ (((cs : ℕ) : ℚ) + 1000 * (T : ℚ) ≤ ((cs + 100 * j : ℕ) : ℚ))
            rw [deadline_cast]
            omega
          obtain ⟨f1, f2, f3, f4, f5, f6, f7, f8, f9, f10, f11, f12, f13, f14⟩ :=
            countdownTickBody_no_delete _ cs hcs2 hno
          refine ⟨_, _, hstep, ?_⟩
          refine Inv3a.countdown _ _ cid cs (j + 1) eDue ?_ ?_ hcid (by omega)
            (by omega) ?_ ?_ ?_ ?_ ?_ ?_ (by simp) ?_
            ⟨⟨txt, hev⟩, htle, hlast, hgap, hokr⟩ ?_
          · rw [f1]
            have harith : cs + 100 * j + 100 = cs + 100 * (j + 1) := by omega
            rw [harith]
          · rw [f3]; exact hnx
          · rw [f10]; exact hg
          · rw [f11]; exact hc
          · rw [f12]; exact he
          · rw [f8]; exact hcs
          · rw [f9]; exact hTq
          · rw [f14]; exact hdis
          · intro p2 rest2 h
            rw [List.cons.injEq] at h
            rw [← h.1]
            exact hhd
          · rw [f4]
            rw [tdLate_append]
            exact ⟨hlate, tdLate_tick tn _ _ _⟩
    · -- the elapsed interval fires first (winning the tie)
      cases exts with
      | nil =>
        obtain ⟨q, hstep⟩ := stepW_elapsed_fires w
          ⟨cid, Cb.countdownTick, cs + 100 * j, some 100⟩ eDue [] htm hcid
          (by simpa using hge) (by simp)
        refine ⟨_, [], hstep, ?_⟩
        refine Inv3a.countdown _ [] cid cs j (eDue + 1000) rfl hnx hcid hj hjb
          hg hc he hcs hTq hdis hemp hhead trivial hlate
      | cons p rest =>
        obtain ⟨t, ev⟩ := p
        obtain ⟨⟨txt, hev⟩, htle, hlast, hgap, hokr⟩ := hok
        rcases Nat.lt_or_ge t eDue with hplt | hpge
        · have hstep := stepW_ext_fires_pair w _ _ t ev rest htm
            (by simpa using hplt) (by simpa using by omega)
          have hhandle : handleExt ev { w with now := t } =
              handleInput txt { w with now := t } := by
            rw [hev]
            simp [handleExt, hdis]
          have hshape := handleInput_session_shape { w with now := t } txt
            ⟨cid, Cb.countdownTick, cs + 100 * j, some 100⟩ eDue htm
            (Or.inr ⟨hg, hc⟩) hcid
          refine ⟨_, rest, hstep, ?_⟩
          rw [hhandle, hshape]
          refine Inv3a.grace _ rest (cid + 1) (t + 1000) eDue ?_ ?_ (by omega)
            ?_ ?_ he hTq hdis ?_ ?_ hokr hlate
          · simp [hnx]
          · simp [hnx]
          · simp [hnx]
          · rfl
          · intro hr
            have := hlast hr
            omega
          · intro p2 rest2 hr
            have := (hgap p2 rest2 hr).2
            omega
        · obtain ⟨q, hstep⟩ := stepW_elapsed_fires w
            ⟨cid, Cb.countdownTick, cs + 100 * j, some 100⟩ eDue ((t, ev) :: rest) htm hcid
            (by simpa using hge) (by
              intro p2 rest2 h
              rw [List.cons.injEq] at h
              rw [← h.1]
              exact hpge)
          refine ⟨_, _, hstep, ?_⟩
          refine Inv3a.countdown _ _ cid cs j (eDue + 1000) rfl hnx hcid hj hjb
            hg hc he hcs hTq hdis hemp hhead
            ⟨⟨txt, hev⟩, htle, hlast, hgap, hokr⟩ hlate
  | done hdone hlate =>
    rcases hdone with hnil | ⟨i, d, hone⟩
    · left
      exact stepW_no_work w hnil
    · right
      have hstep : stepW w [] =
          some (fireTimer w ⟨i, Cb.deletedTimeout, d, none⟩, []) := by
        simp [stepW, hone, minTimer_single]
      refine ⟨_, [], hstep, ?_⟩
      refine Inv3a.done _ ?_ ?_
      · left
        simp [fireTimer, hone]
      · show tdLate tn (fireTimer w ⟨i, Cb.deletedTimeout, d, none⟩).events
        simpa [fireTimer] using hlate

/-- Whole-run safety from the invariant. -/
theorem c3a_run (t0 T tn : Nat) (hT : 1 ≤ T) (fuel : Nat) :
    ∀ (w : World) (exts : List (Nat × ExtEv)), Inv3a t0 T tn w exts →
      tdLate tn (runSim fuel w exts).events := by
  induction fuel with
  | zero => intro w exts inv; exact inv.lateTD
  | succ f ih =>
    intro w exts inv
    rcases inv3a_step t0 T tn hT w exts inv with hnone | ⟨w2, exts2, hstep, inv2⟩
    · rw [runSim_stuck _ _ _ hnone]
      exact inv.lateTD
    · rw [runSim_step f _ _ _ _ hstep]
      exact ih w2 exts2 inv2

theorem chain_le_lastTime (gap : ℕ) : ∀ (ts : List Nat) (t : Nat),
    List.Chain (fun a b => a < b ∧ b < a + gap) t ts → t ≤ lastTime t ts := by
  intro ts
  induction ts with
  | nil => intro t h; exact le_rfl
  | cons t1 ts ih =>
    intro t h
    rcases List.chain_cons.mp h with ⟨⟨hlt, -⟩, hch⟩
    rw [lastTime_cons]
    exact le_trans (le_of_lt hlt) (ih t1 hch)

theorem extsOK_of_chain (gap : ℕ) : ∀ (inputs : List (Nat × List Char)) (t0 : Nat),
    List.Chain (fun a b => a < b ∧ b < a + gap) t0 (inputs.map Prod.fst) →
    extsOK gap (lastTime t0 (inputs.map Prod.fst)) (inputsToExts inputs) := by
  intro inputs
  induction inputs with
  | nil => intro t0 h; trivial
  | cons p rest ih =>
    obtain ⟨t, txt⟩ := p
    intro t0 h
    rcases List.chain_cons.mp h with ⟨⟨h01, h02⟩, hch⟩
    refine ⟨⟨txt, rfl⟩, ?_, ?_, ?_, ?_⟩
    · show t ≤ lastTime t0 ((t, txt).1 :: rest.map Prod.fst)
      rw [lastTime_cons]
      exact chain_le_lastTime gap (rest.map Prod.fst) t hch
    · intro hr
      have : rest = [] := by
        cases rest with
        | nil => rfl
        | cons a b => simp [inputsToExts] at hr
      rw [this]
      rfl
    · intro p2 rest2 hr
      cases rest with
      | nil => simp [inputsToExts] at hr
      | cons p3 rest3 =>
        obtain ⟨t3, txt3⟩ := p3
        have h2 : p2 = (t3, ExtEv.input txt3) := by
          have := (List.cons.injEq _ _ _ _).mp hr
          exact this.1.symm
        rcases List.chain_cons.mp hch with ⟨⟨h31, h32⟩, -⟩
        rw [h2]
        exact ⟨h31, h32⟩
    · show extsOK gap (lastTime t0 ((t, txt).1 :: rest.map Prod.fst)) (inputsToExts rest)
      rw [lastTime_cons]
      exact ih t hch

/-- The freshly started session satisfies the safety invariant. -/
theorem inv3a_init (t0 : Nat) (T : ℕ)
    (inputs : List (Nat × List Char))
    (hch : List.Chain (fun a b => a < b ∧ b < a + 1000 * T) t0 (inputs.map Prod.fst)) :
    Inv3a t0 T (lastTime t0 (inputs.map Prod.fst))
      (startSession none (initWorld t0 (T : ℚ))) (inputsToExts inputs) := by
  rw [startSession_init_eq]
  refine Inv3a.grace _ _ 1 (t0 + 1000) (t0 + 1000) rfl rfl le_rfl rfl rfl rfl rfl
    rfl ?_ ?_ (extsOK_of_chain (1000 * T) inputs t0 hch) ?_
  · intro hr
    have : inputs = [] := by
      cases inputs with
      | nil => rfl
      | cons a b => simp [inputsToExts] at hr
    rw [this]
    show t0 < t0 + 1000
    omega
  · intro p rest hr
    cases inputs with
    | nil => simp [inputsToExts] at hr
    | cons p3 rest3 =>
      obtain ⟨t3, txt3⟩ := p3
      have h2 : p = (t3, ExtEv.input txt3) := by
        have := (List.cons.injEq _ _ _ _).mp hr
        exact this.1.symm
      rcases List.chain_cons.mp hch with ⟨⟨h31, h32⟩, -⟩
      rw [h2]
      show t3 < t0 + 1000 + 1000 * T
      omega
  · intro t2 txt2 wc2 ar2 hm
    simp at hm

/-- C3: for every sequence of keystrokes spaced less than timeoutSeconds
apart, TextDestroyed never fires during the sequence (every TextDestroyed
in the log is strictly after the last keystroke); and for a session with
no activity at all, exactly one TextDestroyed fires, at 1 + timeoutSeconds
seconds after start, with no DecayTick (indeed no event at all) after it
before any further SessionStarted. -/
theorem activity_gaps_prevent_destruction (t0 : Nat) (T : ℕ) (hT : 1 ≤ T) :
    (∀ (inputs : List (Nat × List Char)),
        List.Chain (fun a b => a < b ∧ b < a + 1000 * T) t0 (inputs.map Prod.fst) →
        ∀ (fuel td : Nat) (txt : List Char) (wc : Nat) (ar : Bool),
          Ev.textDestroyed td txt wc ar ∈
            (runSim fuel (startSession none (initWorld t0 (T : ℚ)))
              (inputsToExts inputs)).events →
          lastTime t0 (inputs.map Prod.fst) < td) ∧
    (∀ fuel, 11 * T + 6 ≤ fuel →
        ∃ mid, (runSim fuel (startSession none (initWorld t0 (T : ℚ))) []).events =
            Ev.sessionStarted t0 ::
              (mid ++ [Ev.textDestroyed (t0 + 1000 + 1000 * T) [] 0 false]) ∧
          ∀ e ∈ mid, ∃ t p r, e = Ev.decayTick t p r) := by
  constructor
  · intro inputs hch fuel td txt wc ar hm
    exact c3a_run t0 T _ hT fuel _ _ (inv3a_init t0 T inputs hch) td txt wc ar hm
  · intro fuel hf
    exact session_no_activity_destroys_once t0 T fuel hT hf

set_option maxRecDepth 8000 in
theorem activity_gaps_witness :
    lastTime 0 (([] : List (Nat × List Char)).map Prod.fst) < 2000 ∧
    ∃ mid, (runSim 17 (startSession none (initWorld 0 ((1 : ℕ) : ℚ))) []).events =
        Ev.sessionStarted 0 ::
          (mid ++ [Ev.textDestroyed (0 + 1000 + 1000 * 1) [] 0 false]) ∧
      ∀ e ∈ mid, ∃ t p r, e = Ev.decayTick t p r :=
  ⟨(activity_gaps_prevent_destruction 0 1 (by norm_num)).1 [] List.Chain.nil
      17 2000 [] 0 false (by with_unfolding_all decide),
   (activity_gaps_prevent_destruction 0 1 (by norm_num)).2 17 (by norm_num)⟩

theorem visLate_append (tn : Nat) (l1 l2 : List Ev) :
    visLate tn (l1 ++ l2) ↔ visLate tn l1 ∧ visLate tn l2 := by
  unfold visLate
  rw [tdLate_append]
  constructor
  · rintro ⟨hd, h1, h2⟩
    exact ⟨⟨fun t p r hm => hd t p r (List.mem_append.mpr (Or.inl hm)), h1⟩,
      ⟨fun t p r hm => hd t p r (List.mem_append.mpr (Or.inr hm)), h2⟩⟩
  · rintro ⟨⟨hd1, h1⟩, hd2, h2⟩
    refine ⟨?_, h1, h2⟩
    intro t p r hm
    rcases List.mem_append.mp hm with hm | hm
    · exact hd1 t p r hm
    · exact hd2 t p r hm

theorem visLate_tick (tn t : Nat) (p r : ℚ) (h : tn < t) :
    visLate tn [Ev.decayTick t p r] := by
  constructor
  · intro t2 p2 r2 hm
    simp at hm
    obtain ⟨rfl, -, -⟩ := hm
    exact h
  · exact tdLate_tick tn t p r

theorem visLate_tick_td (tn t : Nat) (p r : ℚ) (txt : List Char) (wc : Nat)
    (ar : Bool) (h : tn < t) :
    visLate tn [Ev.decayTick t p r, Ev.textDestroyed t txt wc ar] := by
  constructor
  · intro t2 p2 r2 hm
    simp at hm
    obtain ⟨rfl, -, -⟩ := hm
    exact h
  · intro t2 txt2 wc2 ar2 hm
    simp at hm
    obtain ⟨rfl, -, -, -⟩ := hm
    exact h

/-- Safety invariant for a session fed by keystrokes never more than a
second apart (last arrival tn): while keystrokes remain pending, the
engine stays in the grace phase, and every visible effect (DecayTick or
TextDestroyed) in the log is after tn. -/
inductive Inv2b (tn : Nat) : World → List (Nat × ExtEv) → Prop
  | grace (w : World) (exts : List (Nat × ExtEv)) (gid gDue eDue : Nat)
      (htm : w.timers = [⟨0, Cb.elapsedTick, eDue, some 1000⟩,
        ⟨gid, Cb.grace, gDue, none⟩])
      (hnx : w.nextId = gid + 1)
      (hgid : 1 ≤ gid)
      (hg : w.st.graceTimerId = some gid)
      (hc : w.st.countdownTimerId = none)
      (he : w.st.elapsedTimerId = some 0)
      (hdis : w.st.textAreaDisabled = false)
      (hemp : exts = [] → tn < gDue)
      (hhead : ∀ p rest, exts = p :: rest → p.1 < gDue)
      (hok : extsOK 1000 tn exts)
      (hlate : visLate tn w.events) :
      Inv2b tn w exts
  | countdown (w : World) (cid cs j eDue : Nat)
      (htm : w.timers = [⟨0, Cb.elapsedTick, eDue, some 1000⟩,
        ⟨cid, Cb.countdownTick, cs + 100 * j, some 100⟩])
      (hnx : w.nextId = cid + 1)
      (hcid : 1 ≤ cid)
      (hj : 1 ≤ j)
      (hg : w.st.graceTimerId = none)
      (hc : w.st.countdownTimerId = some cid)
      (he : w.st.elapsedTimerId = some 0)
      (hcs : w.st.countdownStart = some cs)
      (hdis : w.st.textAreaDisabled = false)
      (hemp : tn < cs)
      (hlate : visLate tn w.events) :
      Inv2b tn w []
  | done (w : World)
      (hdone : w.timers = [] ∨ ∃ i d, w.timers = [⟨i, Cb.deletedTimeout, d, none⟩])
      (hlate : visLate tn w.events) :
      Inv2b tn w []

theorem Inv2b.lateVis {tn : Nat} {w : World} {exts : List (Nat × ExtEv)}
    (inv : Inv2b tn w exts) : visLate tn w.events := by
  cases inv with
  | grace exts gid gDue eDue htm hnx hgid hg hc he hdis hemp hhead hok hlate =>
      exact hlate
  | countdown cid cs j eDue htm hnx hcid hj hg hc he hcs hdis hemp hlate =>
      exact hlate
  | done hdone hlate => exact hlate

/-- One scheduler step preserves the grace-phase safety invariant. -/
theorem inv2b_step (tn : Nat) (w : World)
    (exts : List (Nat × ExtEv)) (inv : Inv2b tn w exts) :
    stepW w exts = none ∨
      ∃ w2 exts2, stepW w exts = some (w2, exts2) ∧ Inv2b tn w2 exts2 := by
  cases inv with
  | grace exts gid gDue eDue htm hnx hgid hg hc he hdis hemp hhead hok hlate =>
    right
    rcases Nat.lt_or_ge gDue eDue with hge | hge
    · cases exts with
      | nil =>
        refine ⟨_, [],
          stepW_grace_fires w gid gDue eDue [] htm hgid hge (by simp), ?_⟩
        rw [beginActiveCountdown_eq]
        refine Inv2b.countdown _ (gid + 1) gDue 1 eDue ?_ ?_ (by omega) le_rfl
          ?_ ?_ ?_ ?_ ?_ (hemp rfl) hlate
        · simp [hnx]
        · simp [hnx]
        · rfl
        · simp [hnx]
        · exact he
        · rfl
        · exact hdis
      | cons p rest =>
        obtain ⟨t, ev⟩ := p
        obtain ⟨⟨txt, hev⟩, htle, hlast, hgap, hokr⟩ := hok
        have hplt : t < gDue := hhead (t, ev) rest rfl
        have hstep := stepW_ext_fires_pair w _ _ t ev rest htm
          (by simpa using by omega) (by simpa using hplt)
        have hhandle : handleExt ev { w with now := t } =
            handleInput txt { w with now := t } := by
          rw [hev]
          simp [handleExt, hdis]
        have hshape := handleInput_session_shape { w with now := t } txt
          ⟨gid, Cb.grace, gDue, none⟩ eDue htm (Or.inl ⟨hg, hc⟩) hgid
        refine ⟨_, rest, hstep, ?_⟩
        rw [hhandle, hshape]
        refine Inv2b.grace _ rest (gid + 1) (t + 1000) eDue ?_ ?_ (by omega)
          ?_ ?_ he hdis ?_ ?_ hokr hlate
        · simp [hnx]
        · simp [hnx]
        · simp [hnx]
        · rfl
        · intro hr
          have := hlast hr
          omega
        · intro p2 rest2 hr
          have := (hgap p2 rest2 hr).2
          omega
    · cases exts with
      | nil =>
        obtain ⟨q, hstep⟩ := stepW_elapsed_fires w ⟨gid, Cb.grace, gDue, none⟩
          eDue [] htm hgid (by simpa using hge) (by simp)
        refine ⟨_, [], hstep, ?_⟩
        refine Inv2b.grace _ [] gid gDue (eDue + 1000) rfl hnx hgid hg hc he
          hdis hemp hhead trivial hlate
      | cons p rest =>
        obtain ⟨t, ev⟩ := p
        obtain ⟨⟨txt, hev⟩, htle, hlast, hgap, hokr⟩ := hok
        have hpgd : t < gDue := hhead (t, ev) rest rfl
        rcases Nat.lt_or_ge t eDue with hplt | hpge
        · have hstep := stepW_ext_fires_pair w _ _ t ev rest htm
            (by simpa using hplt) (by simpa using hpgd)
          have hhandle : handleExt ev { w with now := t } =
              handleInput txt { w with now := t } := by
            rw [hev]
            simp [handleExt, hdis]
          have hshape := handleInput_session_shape { w with now := t } txt
            ⟨gid, Cb.grace, gDue, none⟩ eDue htm (Or.inl ⟨hg, hc⟩) hgid
          refine ⟨_, rest, hstep, ?_⟩
          rw [hhandle, hshape]
          refine Inv2b.grace _ rest (gid + 1) (t + 1000) eDue ?_ ?_ (by omega)
            ?_ ?_ he hdis ?_ ?_ hokr hlate
          · simp [hnx]
          · simp [hnx]
          · simp [hnx]
          · rfl
          · intro hr
            have := hlast hr
            omega
          · intro p2 rest2 hr
            have := (hgap p2 rest2 hr).2
            omega
        · obtain ⟨q, hstep⟩ := stepW_elapsed_fires w ⟨gid, Cb.grace, gDue, none⟩
            eDue ((t, ev) :: rest) htm hgid (by simpa using hge)
            (by
              intro p2 rest2 h
              rw [List.cons.injEq] at h
              rw [← h.1]
              exact hpge)
          refine ⟨_, _, hstep, ?_⟩
          refine Inv2b.grace _ _ gid gDue (eDue + 1000) rfl hnx hgid hg hc he
            hdis hemp hhead ⟨⟨txt, hev⟩, htle, hlast, hgap, hokr⟩ hlate
  | countdown cid cs j eDue htm hnx hcid hj hg hc he hcs hdis hemp hlate =>
    right
    rcases Nat.lt_or_ge (cs + 100 * j) eDue with hge | hge
    · have hstep := stepW_cd_fires w cid (cs + 100 * j) eDue [] htm hcid hge
        (by simp)
      have hcs2 : ({ w with
          now := cs + 100 * j,
          timers := [⟨0, Cb.elapsedTick, eDue, some 1000⟩,
            ⟨cid, Cb.countdownTick, cs + 100 * j + 100, some 100⟩] } :
          World).st.countdownStart = some cs := hcs
      by_cases hdl : (((cs : ℕ) : ℚ) + 1000 * ({ w with
          now := cs + 100 * j,
          timers := [⟨0, Cb.elapsedTick, eDue, some 1000⟩,
            ⟨cid, Cb.countdownTick, cs + 100 * j + 100, some 100⟩] } :
          World).st.timeoutSeconds ≤ (({ w with
          now := cs + 100 * j,
          timers := [⟨0, Cb.elapsedTick, eDue, some 1000⟩,
            ⟨cid, Cb.countdownTick, cs + 100 * j + 100, some 100⟩] } :
          World).now : ℚ))
      · obtain ⟨hev2, htm2, hnow2⟩ := countdownTickBody_deletes _ cs hcs2 hdl
        refine ⟨_, [], hstep, ?_⟩
        refine Inv2b.done _ ?_ ?_
        · right
          refine ⟨w.nextId, cs + 100 * j + 500, ?_⟩
          rw [htm2]
          simp [hg, hc, he]
        · rw [hev2, visLate_append]
          exact ⟨hlate, visLate_tick_td tn _ _ _ _ _ _ (by simp; omega)⟩
      · obtain ⟨f1, f2, f3, f4, f5, f6, f7, f8, f9, f10, f11, f12, f13, f14⟩ :=
          countdownTickBody_no_delete _ cs hcs2 hdl
        refine ⟨_, [], hstep, ?_⟩
        refine Inv2b.countdown _ cid cs (j + 1) eDue ?_ ?_ hcid (by omega)
          ?_ ?_ ?_ ?_ ?_ hemp ?_
        · rw [f1]
          have harith : cs + 100 * j + 100 = cs + 100 * (j + 1) := by omega
          rw [harith]
        · rw [f3]; exact hnx
        · rw [f10]; exact hg
        · rw [f11]; exact hc
        · rw [f12]; exact he
        · rw [f8]; exact hcs
        · rw [f14]; exact hdis
        · rw [f4, visLate_append]
          exact ⟨hlate, visLate_tick tn _ _ _ (by simp; omega)⟩
    · obtain ⟨q, hstep⟩ := stepW_elapsed_fires w
        ⟨cid, Cb.countdownTick, cs + 100 * j, some 100⟩ eDue [] htm hcid
        (by simpa using hge) (by simp)
      refine ⟨_, [], hstep, ?_⟩
      refine Inv2b.countdown _ cid cs j (eDue + 1000) rfl hnx hcid hj
        hg hc he hcs hdis hemp hlate
  | done hdone hlate =>
    rcases hdone with hnil | ⟨i, d, hone⟩
    · left
      exact stepW_no_work w hnil
    · right
      have hstep : stepW w [] =
          some (fireTimer w ⟨i, Cb.deletedTimeout, d, none⟩, []) := by
        simp [stepW, hone, minTimer_single]
      refine ⟨_, [], hstep, ?_⟩
      refine Inv2b.done _ ?_ ?_
      · left
        simp [fireTimer, hone]
      · show visLate tn (fireTimer w ⟨i, Cb.deletedTimeout, d, none⟩).events
        simpa [fireTimer] using hlate

/-- Whole-run safety from the grace-phase invariant. -/
theorem c2b_run (tn : Nat) (fuel : Nat) :
    ∀ (w : World) (exts : List (Nat × ExtEv)), Inv2b tn w exts →
      visLate tn (runSim fuel w exts).events := by
  induction fuel with
  | zero => intro w exts inv; exact inv.lateVis
  | succ f ih =>
    intro w exts inv
    rcases inv2b_step tn w exts inv with hnone | ⟨w2, exts2, hstep, inv2⟩
    · rw [runSim_stuck _ _ _ hnone]
      exact inv.lateVis
    · rw [runSim_step f _ _ _ _ hstep]
      exact ih w2 exts2 inv2

/-- The freshly started session satisfies the grace-phase invariant for
sub-second keystroke gaps. -/
theorem inv2b_init (t0 : Nat) (T : ℚ) (inputs : List (Nat × List Char))
    (hch : List.Chain (fun a b => a < b ∧ b < a + 1000) t0 (inputs.map Prod.fst)) :
    Inv2b (lastTime t0 (inputs.map Prod.fst))
      (startSession none (initWorld t0 T)) (inputsToExts inputs) := by
  rw [startSession_init_eq]
  refine Inv2b.grace _ _ 1 (t0 + 1000) (t0 + 1000) rfl rfl le_rfl rfl rfl rfl
    rfl ?_ ?_ (extsOK_of_chain 1000 inputs t0 hch) ?_
  · intro hr
    have : inputs = [] := by
      cases inputs with
      | nil => rfl
      | cons a b => simp [inputsToExts] at hr
    rw [this]
    show t0 < t0 + 1000
    omega
  · intro p rest hr
    cases inputs with
    | nil => simp [inputsToExts] at hr
    | cons p3 rest3 =>
      obtain ⟨t3, txt3⟩ := p3
      have h2 : p = (t3, ExtEv.input txt3) := by
        have := (List.cons.injEq _ _ _ _).mp hr
        exact this.1.symm
      rcases List.chain_cons.mp hch with ⟨⟨h31, h32⟩, -⟩
      rw [h2]
      show t3 < t0 + 1000
      omega
  · constructor
    · intro t2 p2 r2 hm
      simp at hm
    · intro t2 txt2 wc2 ar2 hm
      simp at hm

/-- C2: the grace delay is a fixed one second, independent of the
configured timeoutSeconds: every startCountdown call (used by both
session start and every activity event) schedules its grace one-shot
exactly 1000 ms ahead; consequently, for every session whose keystrokes
are spaced under one second apart, no visible effect — no DecayTick
sample and no TextDestroyed — occurs up to the last keystroke. -/
theorem grace_delay_fixed_one_second :
    (∀ w : World, (startCountdown w).st.graceTimerId = some w.nextId ∧
        ⟨w.nextId, Cb.grace, w.now + 1000, none⟩ ∈ (startCountdown w).timers) ∧
    (∀ (txt : List Char) (w : World),
        (handleInput txt w).st.graceTimerId = some w.nextId ∧
        ⟨w.nextId, Cb.grace, w.now + 1000, none⟩ ∈ (handleInput txt w).timers) ∧
    (∀ (t0 : Nat) (T : ℚ) (inputs : List (Nat × List Char)),
        List.Chain (fun a b => a < b ∧ b < a + 1000) t0 (inputs.map Prod.fst) →
        ∀ fuel, visLate (lastTime t0 (inputs.map Prod.fst))
          (runSim fuel (startSession none (initWorld t0 T))
            (inputsToExts inputs)).events) := by
  refine ⟨?_, ?_, ?_⟩
  · intro w
    rw [startCountdown_eq]
    simp
  · intro txt w
    rw [handleInput_eq, startCountdown_eq]
    simp
  · intro t0 T inputs hch fuel
    exact c2b_run _ fuel _ _ (inv2b_init t0 T inputs hch)

theorem grace_delay_witness :
    ((startCountdown (initWorld 0 5)).st.graceTimerId = some (initWorld 0 5).nextId ∧
      ⟨(initWorld 0 5).nextId, Cb.grace, (initWorld 0 5).now + 1000, none⟩ ∈
        (startCountdown (initWorld 0 5)).timers) ∧
    visLate (lastTime 0 ([(500, ['h'])].map Prod.fst))
      (runSim 40 (startSession none (initWorld 0 5))
        (inputsToExts [(500, ['h'])])).events :=
  ⟨grace_delay_fixed_one_second.1 (initWorld 0 5),
   grace_delay_fixed_one_second.2.2 0 5 [(500, ['h'])]
      (List.chain_cons.mpr ⟨⟨by norm_num, by norm_num⟩, List.Chain.nil⟩) 40⟩

end WUD
